import Mathlib

/-!
# Endpoint discovery (EDS v2): cluster cache, connection registry, push

A shallow embedding of `pilot/pkg/proxy/envoy/v2/eds.go`.

* Go maps are finite maps with unique keys (`GoMap`); the iteration order of a Go map
  is unspecified, so every statement below is about lookups, membership or permutations.
* A `*XdsConnection` is the address of a connection object (`ConnRef`); two connections
  are the same object exactly when their addresses are equal.
* The package-level variables `edsDebug`, `edsClusters`, `connectionNumber` and the wake
  channels of the connection objects form the `State`. Mutexes are not represented: every
  function is embedded as it runs when no other goroutine interleaves.
* A run either completes, stops at a nil dereference, or stops at a send on a full channel
  that no step of the same run can drain (`Exec`).
-/

namespace Eds

/-! ## Go maps -/

/-- A Go `map[K]V`: a list of key/value entries without repeated keys. -/
structure GoMap (K : Type) (V : Type) where
  entries : List (K × V)
  nodupKeys : (entries.map Prod.fst).Nodup
deriving DecidableEq

namespace GoMap

variable {K V : Type} [DecidableEq K]

/-- The map literal `map[K]V{}`. -/
def empty : GoMap K V := ⟨[], List.nodup_nil⟩

/-- The lookup `m[k]`; `none` stands for the zero value returned for a missing key. -/
def get (m : GoMap K V) (k : K) : Option V :=
  (m.entries.find? (fun e => decide (e.1 = k))).map Prod.snd

/-- The builtin `len(m)`. -/
def len (m : GoMap K V) : Nat := m.entries.length

/-- The builtin `delete(m, k)`. -/
def delete (m : GoMap K V) (k : K) : GoMap K V :=
  ⟨m.entries.filter (fun e => decide (e.1 ≠ k)),
    m.nodupKeys.sublist ((List.filter_sublist m.entries).map Prod.fst)⟩

/-- The assignment `m[k] = v`: an existing entry is overwritten where it stands, a new key
is added at the end. -/
def set (m : GoMap K V) (k : K) (v : V) : GoMap K V :=
  if h : k ∈ m.entries.map Prod.fst then
    ⟨m.entries.map (fun e => if e.1 = k then (k, v) else e), by
      have hk : (m.entries.map (fun e => if e.1 = k then (k, v) else e)).map Prod.fst
          = m.entries.map Prod.fst := by
        rw [List.map_map]
        apply List.map_congr_left
        intro e _
        by_cases he : e.1 = k <;> simp [he]
      rw [hk]
      exact m.nodupKeys⟩
  else
    ⟨m.entries ++ [(k, v)], by
      rw [List.map_append, List.nodup_append]
      refine ⟨m.nodupKeys, by simp, ?_⟩
      intro a ha hb
      simp at hb
      exact h (hb ▸ ha)⟩

/-- The keys of the map. -/
def keys (m : GoMap K V) : List K := m.entries.map Prod.fst

/-- The values visited by `for _, v := range m`. -/
def values (m : GoMap K V) : List V := m.entries.map Prod.snd

end GoMap

/-! ## Data model -/

/-- The address of an `XdsConnection` object. The nil pointer is not a `ConnRef`: the handler
only ever passes the address of its own connection object, and a lookup that finds no
connection is `none`. -/
abbrev ConnRef := Nat

/-- An `endpoint.LbEndpoint` with a socket address: the fields set by `newEndpoint`. -/
structure LbEndpoint where
  Address : String
  Ipv4Compat : Bool
  PortValue : Nat
deriving DecidableEq, Repr

/-- An `endpoint.LocalityLbEndpoints`: `Locality.Zone` and the endpoints of that zone. -/
structure LocalityLbEndpoints where
  Zone : String
  LbEndpoints : List LbEndpoint
deriving DecidableEq, Repr

/-- An `xdsapi.ClusterLoadAssignment`. -/
structure ClusterLoadAssignment where
  ClusterName : String
  Endpoints : List LocalityLbEndpoints
deriving DecidableEq, Repr

/-- The record `EdsCluster`. Times are clock readings, `0` being the zero `time.Time`.
The field `discovery` (the one discovery server) is left out: its environment is passed
to the functions that use it. -/
structure EdsCluster where
  LoadAssignment : Option ClusterLoadAssignment
  FirstUse : Nat
  EdsClients : GoMap String ConnRef
  NonEmptyTime : Nat
deriving DecidableEq

/-- The package-level state: `edsDebug`, `edsClusters`, `connectionNumber` (an `int64`),
the reading that `time.Now()` returns, and the connections whose capacity-one
`pushChannel` currently holds a signal. -/
structure State where
  edsDebug : Bool
  edsClusters : GoMap String EdsCluster
  connectionNumber : Int
  now : Nat
  pushFull : List ConnRef
deriving DecidableEq

/-- How a run ends, with the state it ends in: it ran to completion (`done`), it is stuck
at a send on a full channel (`blocked`), or it dereferenced a nil pointer (`panicked`). -/
inductive Exec (σ : Type) where
  | done (s : σ)
  | blocked (s : σ)
  | panicked (s : σ)
deriving DecidableEq

namespace Exec

/-- The state a run ends in. -/
def state {σ : Type} : Exec σ → σ
  | done s => s
  | blocked s => s
  | panicked s => s

/-- Whether the run completed. -/
def isDone {σ : Type} : Exec σ → Bool
  | done _ => true
  | _ => false

/-- Sequencing: the second part runs only if the first part completed. -/
def andThen {σ : Type} (x : Exec σ) (f : σ → Exec σ) : Exec σ :=
  match x with
  | done s => f s
  | blocked s => blocked s
  | panicked s => panicked s

end Exec

/-! ## Cluster cache and connection registry -/

/-- The function `getEdsCluster`: `edsClusters[clusterName]`. -/
def getEdsCluster (st : State) (clusterName : String) : Option EdsCluster :=
  st.edsClusters.get clusterName

/-- The function `getOrAddEdsCluster`: returns the cached record, or stores and returns a
new one with an empty `EdsClients` map and `FirstUse = time.Now()`. -/
def getOrAddEdsCluster (st : State) (clusterName : String) : EdsCluster × State :=
  match st.edsClusters.get clusterName with
  | some c => (c, st)
  | none =>
    let c : EdsCluster :=
      { LoadAssignment := none, FirstUse := st.now, EdsClients := GoMap.empty, NonEmptyTime := 0 }
    (c, { st with edsClusters := st.edsClusters.set clusterName c })

/-- The function `removeEdsCon`. A missing cluster returns at once. When the connection
stored under `node` is not `connection` the function returns without a change; with
`edsDebug` set it first reads `oldcon.PeerAddr`, a nil dereference when nothing is stored.
Otherwise the entry is deleted, and the record is deleted from `edsClusters` when its
`EdsClients` became empty. -/
def removeEdsCon (st : State) (clusterName node : String) (connection : ConnRef) : Exec State :=
  match getEdsCluster st clusterName with
  | none => .done st
  | some c =>
    let oldcon := c.EdsClients.get node
    if oldcon ≠ some connection then
      if st.edsDebug then
        match oldcon with
        | none => .panicked st
        | some _ => .done st
      else .done st
    else
      let c1 : EdsCluster := { c with EdsClients := c.EdsClients.delete node }
      if c1.EdsClients.len = 0 then
        .done { st with edsClusters := st.edsClusters.delete clusterName }
      else
        .done { st with edsClusters := st.edsClusters.set clusterName c1 }

/-- The connection registered under `node` in cluster `clusterName`, if any. -/
def watcher (st : State) (clusterName node : String) : Option ConnRef :=
  (st.edsClusters.get clusterName).bind (fun c => c.EdsClients.get node)

/-! ## Endpoint resolution -/

/-- A `net.IP`: a slice of bytes. -/
abbrev IP := List Nat

/-- The method `IP.To4` of package `net`: the four-byte form of an IPv4 address, or nil. -/
def IP.To4 (ip : IP) : Option IP :=
  if ip.length = 4 then some ip
  else if ip.length = 16 ∧ ip.take 10 = List.replicate 10 0 ∧ ip.drop 10 = [255, 255] ++ ip.drop 12
  then some (ip.drop 12)
  else none

/-- A `model.Port`, of which only the name is used. -/
structure Port where
  Name : String
deriving DecidableEq, Repr

/-- A `model.Labels` value. -/
abbrev Labels := List (String × String)

/-- A `model.LabelsCollection` value. -/
abbrev LabelsCollection := List Labels

/-- A `model.NetworkEndpoint` (declared in package `model`): the address, and the port, a
Go `int`, which the grouping converts with `(uint32)(...)`. -/
structure NetworkEndpoint where
  Address : String
  Port : Int
deriving DecidableEq, Repr

/-- A `model.ServiceInstance` (declared in package `model`): the fields read by the endpoint
grouping. -/
structure ServiceInstance where
  Endpoint : NetworkEndpoint
  AvailabilityZone : String
deriving DecidableEq, Repr

/-- A `types.Any`: a type URL and the serialised message. -/
structure Any where
  TypeUrl : String
  Value : List Nat
deriving DecidableEq, Repr

/-- The collaborators that live outside this file: `net.ParseIP`, the key parsers of package
`model`, the config store (`SubsetToLabels`), the service registry (`Instances`, which
returns the instances or an error), `types.MarshalAny` on a message that is not nil (the
result is nil when it reports an error), and the `versionInfo` and `nonce` generators,
which read the clock. -/
structure Environment where
  ParseIP : String → Option IP
  ParseSubsetKey : String → String × String × String × Port
  ParseServiceKey : String → String × List Port × LabelsCollection
  SubsetToLabels : String → String → String → LabelsCollection
  Instances : String → List String → LabelsCollection → Except String (List ServiceInstance)
  MarshalAny : ClusterLoadAssignment → Option Any
  versionInfo : Nat → String
  nonce : Nat → String

/-- The conversion `(uint32)(x)` of a Go `int`. -/
def toUint32 (x : Int) : Nat := (x % 2 ^ 32).toNat

/-- The function `newEndpoint`: an error when the address is not an IP address, else the
endpoint with that address string and port. -/
def newEndpoint (env : Environment) (address : String) (port : Nat) : Except String LbEndpoint :=
  match env.ParseIP address with
  | none => .error ("Invalid IP address " ++ address)
  | some ipAddr =>
    .ok { Address := address, Ipv4Compat := (IP.To4 ipAddr).isSome, PortValue := port }

/-- The first loop of `localityLbEndpointsFromInstances`, run on the map `localityEpMap`. -/
def localityEpLoop (env : Environment) :
    List ServiceInstance → GoMap String LocalityLbEndpoints → GoMap String LocalityLbEndpoints
  | [], localityEpMap => localityEpMap
  | inst :: rest, localityEpMap =>
    match newEndpoint env inst.Endpoint.Address (toUint32 inst.Endpoint.Port) with
    | .error _ => localityEpLoop env rest localityEpMap
    | .ok lbEp =>
      let locality := inst.AvailabilityZone
      let locLbEps : LocalityLbEndpoints :=
        match localityEpMap.get locality with
        | some found => found
        | none => { Zone := inst.AvailabilityZone, LbEndpoints := [] }
      localityEpLoop env rest
        (localityEpMap.set locality { locLbEps with LbEndpoints := locLbEps.LbEndpoints ++ [lbEp] })

/-- The function `localityLbEndpointsFromInstances`: the values of `localityEpMap`. -/
def localityLbEndpointsFromInstances (env : Environment) (instances : List ServiceInstance) :
    List LocalityLbEndpoints :=
  (localityEpLoop env instances GoMap.empty).values

/-- The test `strings.Index(clusterName, "outbound") == 0`. -/
def isOutbound (clusterName : String) : Bool :=
  "outbound".data.isPrefixOf clusterName.data

/-- The first part of `updateCluster`: the host name, ports and labels selected by the key,
parsed as a subset key when it starts with `outbound` and as a service key otherwise. -/
def updateClusterSelector (env : Environment) (clusterName : String) :
    String × List Port × LabelsCollection :=
  if isOutbound clusterName then
    let parsed := env.ParseSubsetKey clusterName
    let subsetName := parsed.2.1
    let hostname := parsed.2.2.1
    let p := parsed.2.2.2
    (hostname, [p], env.SubsetToLabels subsetName hostname "")
  else env.ParseServiceKey clusterName

/-- The registry lookup of `updateCluster`:
`ServiceDiscovery.Instances(hostname, ports.GetNames(), labels)`. -/
def updateClusterLookup (env : Environment) (clusterName : String) :
    Except String (List ServiceInstance) :=
  env.Instances (updateClusterSelector env clusterName).1
    ((updateClusterSelector env clusterName).2.1.map Port.Name)
    (updateClusterSelector env clusterName).2.2

/-- The function `updateCluster`, as the new content of the record `edsCluster`. A registry
error returns before anything is written. -/
def updateCluster (env : Environment) (now : Nat) (clusterName : String) (edsCluster : EdsCluster) :
    EdsCluster :=
  match updateClusterLookup env clusterName with
  | .error _ => edsCluster
  | .ok instances =>
    let locEps := localityLbEndpointsFromInstances env instances
    { edsCluster with
      LoadAssignment := some { ClusterName := clusterName, Endpoints := locEps }
      NonEmptyTime :=
        if locEps.length > 0 ∧ edsCluster.NonEmptyTime = 0 then now else edsCluster.NonEmptyTime }

/-- The function `loadAssignment`. -/
def loadAssignment (c : EdsCluster) : Option ClusterLoadAssignment := c.LoadAssignment

/-- How a call that returns a value ends: with the value and the state (`val`), or at a nil
dereference, with the state it stopped in (`panicked`). -/
inductive Ret (α : Type) where
  | val (a : α) (st : State)
  | panicked (st : State)
deriving DecidableEq

namespace Ret

/-- The state the call ends in. -/
def state {α : Type} : Ret α → State
  | val _ st => st
  | panicked st => st

/-- The value returned, if the call returned. -/
def value {α : Type} : Ret α → Option α
  | val a _ => some a
  | panicked _ => none

/-- Whether the call stopped at a nil dereference. -/
def isPanicked {α : Type} : Ret α → Bool
  | val _ _ => false
  | panicked _ => true

end Ret

/-- The function `clusterEndpoints`: the record is fetched or created, its assignment is
computed when it has none, and the assignment `l` is passed to `types.MarshalAny`. When
the lookup of `updateCluster` failed `l` is still nil, and marshalling it dereferences the
nil message. -/
def clusterEndpoints (env : Environment) (st : State) (clusterName : String) : Ret (Option Any) :=
  let r := getOrAddEdsCluster st clusterName
  match loadAssignment r.1 with
  | some l => .val (env.MarshalAny l) r.2
  | none =>
    let c1 := updateCluster env r.2.now clusterName r.1
    let st2 : State := { r.2 with edsClusters := r.2.edsClusters.set clusterName c1 }
    match loadAssignment c1 with
    | some l => .val (env.MarshalAny l) st2
    | none => .panicked st2

/-- An `xdsapi.DiscoveryResponse`. -/
structure DiscoveryResponse where
  TypeUrl : String
  VersionInfo : String
  Nonce : String
  Resources : List Any
deriving DecidableEq, Repr

/-- The constant `endpointType`. -/
def endpointType : String := "type.googleapis.com/envoy.api.v2.ClusterLoadAssignment"

/-- The loop of `endpoints` over the requested names, appending to `out.Resources`. -/
def endpointsLoop (env : Environment) : List String → State → List Any → Ret (List Any)
  | [], st, out => .val out st
  | clusterName :: rest, st, out =>
    match clusterEndpoints env st clusterName with
    | .panicked st1 => .panicked st1
    | .val (some clAssignmentRes) st1 => endpointsLoop env rest st1 (out ++ [clAssignmentRes])
    | .val none st1 => endpointsLoop env rest st1 out

/-- The method `endpoints`. -/
def endpoints (env : Environment) (st : State) (clusterNames : List String) :
    Ret DiscoveryResponse :=
  match endpointsLoop env clusterNames st [] with
  | .panicked st1 => .panicked st1
  | .val resources st1 =>
    .val { TypeUrl := endpointType, VersionInfo := env.versionInfo st.now,
           Nonce := env.nonce st.now, Resources := resources } st1

/-! ## Connection identifiers -/

/-- The function `strconv.Itoa`: decimal digits, with a leading minus sign for a negative number. -/
def Itoa : Int → String
  | Int.ofNat n => Nat.repr n
  | Int.negSucc n => "-" ++ Nat.repr (n + 1)

/-- The value of an `int64` after an arithmetic operation: two's complement wrap-around. -/
def wrapInt64 (x : Int) : Int := (x + 2 ^ 63) % 2 ^ 64 - 2 ^ 63

/-- The function `connectionID`: increments `connectionNumber` and returns
`node + "-" + strconv.Itoa(int(c))` (an `int` has 64 bits). -/
def connectionID (st : State) (node : String) : String × State :=
  let c := wrapInt64 (st.connectionNumber + 1)
  (node ++ "-" ++ Itoa c, { st with connectionNumber := c })

/-- The results of calling `connectionID` once for each raw id of the list, in order. -/
def connectionIDs : State → List String → List String
  | _, [] => []
  | st, node :: rest => (connectionID st node).1 :: connectionIDs (connectionID st node).2 rest

/-! ## Wake channels, registration, push -/

/-- The send `c.pushChannel <- struct{}{}` on a channel of capacity one: it completes when
the channel is empty and cannot proceed while the channel is full. -/
def chanSend (st : State) (c : ConnRef) : Exec State :=
  if c ∈ st.pushFull then .blocked st else .done { st with pushFull := c :: st.pushFull }

/-- The function `addEdsCon`: a connection already stored under `node` is sent a wake signal,
then the entry is overwritten with `connection`. -/
def addEdsCon (st : State) (clusterName node : String) (connection : ConnRef) : Exec State :=
  let r := getOrAddEdsCluster st clusterName
  let existing := r.1.EdsClients.get node
  let signalled : Exec State :=
    match existing with
    | some old => chanSend r.2 old
    | none => .done r.2
  signalled.andThen fun st2 =>
    .done { st2 with
      edsClusters := st2.edsClusters.set clusterName
        { r.1 with EdsClients := r.1.EdsClients.set node connection } }

/-- The inner loop of `edsPushAll`: one send for each value of `EdsClients`. -/
def pushClients : List ConnRef → State → Exec State
  | [], st => .done st
  | edsCon :: rest, st => (chanSend st edsCon).andThen (pushClients rest)

/-- The outer loop of `edsPushAll` over the entries of `tmpMap`. The record an entry points
to is the one the cache holds under the same key, since a pass removes no record and
writes each record only at its own entry. -/
def edsPushLoop (env : Environment) : List (String × EdsCluster) → State → Exec State
  | [], st => .done st
  | (clusterName, edsCluster) :: rest, st =>
    let c1 := updateCluster env st.now clusterName edsCluster
    let st1 : State := { st with edsClusters := st.edsClusters.set clusterName c1 }
    (pushClients c1.EdsClients.values st1).andThen (edsPushLoop env rest)

/-- The function `edsPushAll`: `tmpMap` is a copy of `edsClusters`. -/
def edsPushAll (env : Environment) (st : State) : Exec State :=
  edsPushLoop env st.edsClusters.entries st

/-! ## The stream handler -/

/-- An `xdsapi.DiscoveryRequest`; `Node` is the id of the node, `none` when `Node` is nil. -/
structure DiscoveryRequest where
  Node : Option String
  ResourceNames : List String
  VersionInfo : String
  ResponseNonce : String
  ErrorDetail : Option String
deriving DecidableEq, Repr

/-- The variables of one `StreamEndpoints` call: the connection object `con` with its fields
`PeerAddr`, `Clusters` and `Node`, the locals `node` and `initialRequestReceived`, and the
responses handed to `stream.Send` so far. -/
structure Handler where
  con : ConnRef
  PeerAddr : String
  Clusters : List String
  Node : String
  node : String
  initialRequestReceived : Bool
  sent : List DiscoveryResponse
deriving DecidableEq

/-- How one round of the event loop ends: the loop goes round again (`next`), it is stuck at
a channel send (`blocked`), it hit a nil dereference (`panicked`), or `StreamEndpoints`
returned an error (`returned`). -/
inductive LoopStep where
  | next (st : State) (h : Handler)
  | blocked (st : State) (h : Handler)
  | panicked (st : State) (h : Handler)
  | returned (st : State) (h : Handler) (err : String)
deriving DecidableEq

namespace LoopStep

/-- The package state at the end of the round. -/
def state : LoopStep → State
  | next st _ => st
  | blocked st _ => st
  | panicked st _ => st
  | returned st _ _ => st

/-- Whether the round is stuck at a channel send. -/
def isBlocked : LoopStep → Bool
  | blocked _ _ => true
  | _ => false

/-- The handler variables at the end of the round. -/
def handler : LoopStep → Handler
  | next _ h => h
  | blocked _ h => h
  | panicked _ h => h
  | returned _ h _ => h

end LoopStep

/-- The method `pushEds`: builds the response and hands it to `stream.Send`, whose error (if
any) is `sendErr`. -/
def pushEds (env : Environment) (st : State) (h : Handler) (sendErr : Option String) : LoopStep :=
  match endpoints env st h.Clusters with
  | .panicked st1 => .panicked st1 h
  | .val response st1 =>
    let h1 : Handler := { h with sent := h.sent ++ [response] }
    match sendErr with
    | some err => .returned st1 h1 err
    | none => .next st1 h1

/-- The statements after the `select`: a push when `con.Clusters` is not empty. -/
def afterSelect (env : Environment) (st : State) (h : Handler) (sendErr : Option String) : LoopStep :=
  if h.Clusters.length > 0 then pushEds env st h sendErr else .next st h

/-- The loop `for _, c := range con.Clusters { s.addEdsCon(c, node, con) }`. -/
def addEdsConLoop (node : String) (con : ConnRef) : List String → State → Exec State
  | [], st => .done st
  | c :: rest, st => (addEdsCon st c node con).andThen (addEdsConLoop node con rest)

/-- The statement `if node == "" && discReq.Node != nil { node = connectionID(discReq.Node.Id) }`:
the value of `node` after it, and the state. -/
def assignNode (st : State) (h : Handler) (discReq : DiscoveryRequest) : String × State :=
  match discReq.Node with
  | some id => if h.node = "" then connectionID st id else (h.node, st)
  | none => (h.node, st)

/-- One round of the event loop of `StreamEndpoints` taking the branch
`case discReq, ok = <-reqChannel` with `ok` true. -/
def onRequest (env : Environment) (st : State) (h : Handler) (discReq : DiscoveryRequest)
    (sendErr : Option String) : LoopStep :=
  let r : String × State := assignNode st h discReq
  let node := r.1
  let clusters2 := discReq.ResourceNames
  let initialRequestReceived : Bool :=
    if h.initialRequestReceived = true ∧ clusters2.length > h.Clusters.length then false
    else h.initialRequestReceived
  if initialRequestReceived = true ∧ h.Clusters.length > 0 then
    .next r.2 { h with node := node }
  else
    let h1 : Handler :=
      { h with node := node, Clusters := discReq.ResourceNames, Node := node,
               initialRequestReceived := true }
    match addEdsConLoop node h.con h1.Clusters r.2 with
    | .done st2 => afterSelect env st2 h1 sendErr
    | .blocked st2 => .blocked st2 h1
    | .panicked st2 => .panicked st2 h1

/-- One round of the event loop taking the branch `case <-con.pushChannel`, which is enabled
when the channel holds a signal. -/
def onWake (env : Environment) (st : State) (h : Handler) (sendErr : Option String) : LoopStep :=
  afterSelect env { st with pushFull := st.pushFull.filter (fun c => decide (c ≠ h.con)) } h sendErr

/-- The loop `for _, c := range con.Clusters { s.removeEdsCon(c, node, con) }`. -/
def removeEdsConLoop (node : String) (con : ConnRef) : List String → State → Exec State
  | [], st => .done st
  | c :: rest, st => (removeEdsCon st c node con).andThen (removeEdsConLoop node con rest)

/-- The close step of the receiving goroutine when `stream.Recv` returns an error. -/
def closeStream (st : State) (h : Handler) : Exec State :=
  removeEdsConLoop h.node h.con h.Clusters st

/-- The handler variables when `StreamEndpoints` starts: an empty `con.Clusters`, an empty
`node`, no request received. -/
def newHandler (con : ConnRef) (peerAddr : String) : Handler :=
  { con := con, PeerAddr := peerAddr, Clusters := [], Node := "", node := "",
    initialRequestReceived := false, sent := [] }

/-- The rounds of the event loop for a list of requests (each with the error of its
`stream.Send`, if any), stopping at the first round that does not go round again. -/
def onRequests (env : Environment) : List (DiscoveryRequest × Option String) → State → Handler → LoopStep
  | [], st, h => .next st h
  | (discReq, sendErr) :: rest, st, h =>
    match onRequest env st h discReq sendErr with
    | .next st1 h1 => onRequests env rest st1 h1
    | other => other

/-! ## Derived notions used in the statements -/

/-- The endpoint that `localityLbEndpointsFromInstances` builds for an instance: the result
of its `newEndpoint` call, `none` when that call fails. -/
def endpointOf (env : Environment) (inst : ServiceInstance) : Option LbEndpoint :=
  match newEndpoint env inst.Endpoint.Address (toUint32 inst.Endpoint.Port) with
  | .ok lbEp => some lbEp
  | .error _ => none

/-- The endpoints, in order, of the instances of zone `z` whose address parses. -/
def zoneEndpoints (env : Environment) (instances : List ServiceInstance) (z : String) :
    List LbEndpoint :=
  (instances.filter (fun i => decide (i.AvailabilityZone = z))).filterMap (endpointOf env)

/-- The load assignment that the cache holds for cluster `clusterName`, if any. -/
def assignmentAt (st : State) (clusterName : String) : Option ClusterLoadAssignment :=
  (st.edsClusters.get clusterName).bind EdsCluster.LoadAssignment

/-- The value of a decimal digit character. -/
def digitVal (c : Char) : Nat := c.toNat - 48

/-- The number written by a list of decimal digit characters. -/
def decodeDigits (l : List Char) : Nat := l.foldl (fun acc c => acc * 10 + digitVal c) 0

/-- The connections that `edsPushAll` sends to, in the order of its two loops: for every
cluster of the cache, every value of its `EdsClients`. -/
def registered (st : State) : List ConnRef :=
  st.edsClusters.entries.flatMap (fun e => e.2.EdsClients.values)

/-- A sample environment. `ParseIP` knows the addresses `10.1.1.0` and `10.1.1.1`; the
registry has two instances of `hello.default.svc.cluster.local` in two zones and fails for
the host `broken`; keys are split at the first `|`; `MarshalAny` never reports an error. -/
def sampleEnv : Environment :=
  { ParseIP := fun s =>
      if s = "10.1.1.0" then some [0, 0, 0, 0, 0, 0, 0, 0, 0, 0, 255, 255, 10, 1, 1, 0]
      else if s = "10.1.1.1" then some [0, 0, 0, 0, 0, 0, 0, 0, 0, 0, 255, 255, 10, 1, 1, 1]
      else none
    ParseSubsetKey := fun s =>
      ("outbound", "", String.mk ((s.data.drop 9).takeWhile (fun c => c != '|')),
        { Name := "http" })
    ParseServiceKey := fun s =>
      (String.mk (s.data.takeWhile (fun c => c != '|')), [{ Name := "http" }], [])
    SubsetToLabels := fun _ _ _ => []
    Instances := fun hostname _ _ =>
      if hostname = "broken" then .error "registry unavailable"
      else if hostname = "hello.default.svc.cluster.local" then
        .ok [{ Endpoint := { Address := "10.1.1.0", Port := 80 }, AvailabilityZone := "az1" },
             { Endpoint := { Address := "10.1.1.1", Port := 80 }, AvailabilityZone := "az2" }]
      else .ok []
    MarshalAny := fun a =>
      some { TypeUrl := endpointType, Value := a.ClusterName.data.map Char.toNat }
    versionInfo := fun now => Nat.repr now
    nonce := fun now => Nat.repr now }

/-- A sample state: cluster `"k"` is watched by connection `1` under `"n1"` and by
connection `2` under `"n2"`; debug logging is on. -/
def sampleTwoWatchers : State :=
  { edsDebug := true
    edsClusters := GoMap.empty.set "k"
      { LoadAssignment := none, FirstUse := 0
        EdsClients := (GoMap.empty.set "n1" 1).set "n2" 2, NonEmptyTime := 0 }
    connectionNumber := 2
    now := 5
    pushFull := [] }

/-- A sample state: cluster `"k"` is watched by connection `1` under `"n1"` only. -/
def sampleOneWatcher : State :=
  { edsDebug := true
    edsClusters := GoMap.empty.set "k"
      { LoadAssignment := some { ClusterName := "k", Endpoints := [] }, FirstUse := 0
        EdsClients := GoMap.empty.set "n1" 1, NonEmptyTime := 0 }
    connectionNumber := 1
    now := 5
    pushFull := [] }

/-- The state of a server that has not served a connection yet; debug logging is on. -/
def sampleStart : State :=
  { edsDebug := true, edsClusters := GoMap.empty, connectionNumber := 0, now := 5, pushFull := [] }

/-- A request of the node `sidecar~a~b~c` for the given cluster names. -/
def sampleRequest (names : List String) : DiscoveryRequest :=
  { Node := some "sidecar~a~b~c", ResourceNames := names, VersionInfo := "", ResponseNonce := ""
    ErrorDetail := none }

/-- A request without a node for the given cluster names. -/
def sampleRequestNoNode (names : List String) : DiscoveryRequest :=
  { Node := none, ResourceNames := names, VersionInfo := "", ResponseNonce := ""
    ErrorDetail := none }

/-- Whether the round stopped at a nil dereference. -/
def LoopStep.isPanicked : LoopStep → Bool
  | .panicked _ _ => true
  | _ => false

/-- Whether the run is stuck at a send on a full channel. -/
def Exec.isBlocked {σ : Type} : Exec σ → Bool
  | .blocked _ => true
  | _ => false

/-- Whether the run stopped at a nil dereference. -/
def Exec.isPanicked {σ : Type} : Exec σ → Bool
  | .panicked _ => true
  | _ => false

/-! ## Lemmas on Go maps -/

namespace GoMap

variable {K V : Type} [DecidableEq K]

theorem get_empty (k : K) : (empty : GoMap K V).get k = none := rfl

theorem get_delete_self (m : GoMap K V) (k : K) : (m.delete k).get k = none := by
  unfold get delete
  simp only [Option.map_eq_none', List.find?_eq_none]
  intro e he
  simp at he
  simpa using he.2

theorem find_filter_ne (l : List (K × V)) (k k' : K) (h : k' ≠ k) :
    (l.filter (fun e => decide (e.1 ≠ k))).find? (fun e => decide (e.1 = k'))
      = l.find? (fun e => decide (e.1 = k')) := by
  induction l with
  | nil => rfl
  | cons e t ih =>
    by_cases hk : e.1 = k
    · have hk' : ¬ e.1 = k' := fun h' => h (h'.symm.trans hk)
      have h1 : decide (e.1 ≠ k) = false := by simp [hk]
      rw [List.filter_cons, h1]
      simp only [Bool.false_eq_true, if_false, List.find?_cons, hk', decide_False]
      exact ih
    · have h1 : decide (e.1 ≠ k) = true := by simp [hk]
      rw [List.filter_cons, h1]
      by_cases hk' : e.1 = k'
      · simp only [if_true, List.find?_cons, hk', decide_True]
      · simp only [if_true, List.find?_cons, hk', decide_False]
        exact ih

theorem get_delete_ne (m : GoMap K V) (k k' : K) (h : k' ≠ k) :
    (m.delete k).get k' = m.get k' := by
  unfold get delete
  simp only [find_filter_ne _ _ _ h]

theorem find_append_new (l : List (K × V)) (k k' : K) (v : V) (h : k ∉ l.map Prod.fst) :
    (l ++ [(k, v)]).find? (fun e => decide (e.1 = k'))
      = if k' = k then some (k, v) else l.find? (fun e => decide (e.1 = k')) := by
  induction l with
  | nil =>
    by_cases hk : k = k'
    · simp [hk]
    · have hk2 : ¬ k' = k := fun h' => hk h'.symm
      simp [hk, hk2]
  | cons e t ih =>
    have hne : ¬ e.1 = k := by
      intro h'
      exact h (by simp [← h'])
    have ht : k ∉ t.map Prod.fst := fun h' => h (by simp at h' ⊢; exact Or.inr h')
    by_cases hk' : e.1 = k'
    · have hkk : ¬ k' = k := fun h' => hne (hk'.trans h')
      simp [List.find?_cons, hk', hkk]
    · simp only [List.cons_append, List.find?_cons, hk', decide_False]
      exact ih ht

theorem find_replace (l : List (K × V)) (k k' : K) (v : V) (h : k ∈ l.map Prod.fst) :
    (l.map (fun e => if e.1 = k then (k, v) else e)).find? (fun e => decide (e.1 = k'))
      = if k' = k then some (k, v) else l.find? (fun e => decide (e.1 = k')) := by
  induction l with
  | nil => simp at h
  | cons e t ih =>
    by_cases hk : e.1 = k
    · by_cases hkk : k' = k
      · simp [List.find?_cons, hk, hkk]
      · have h1 : ¬ k = k' := fun h' => hkk h'.symm
        have h2 : ¬ e.1 = k' := fun h' => hkk (h'.symm.trans hk)
        simp only [List.map_cons, hk, if_true, List.find?_cons, h1, decide_False, h2, hkk, if_false]
        by_cases hmem : k ∈ t.map Prod.fst
        · rw [ih hmem, if_neg hkk]
        · have hid : t.map (fun e => if e.1 = k then (k, v) else e) = t := by
            conv_rhs => rw [← List.map_id t]
            apply List.map_congr_left
            intro a ha
            have : ¬ a.1 = k := fun h' => hmem (by simp; exact ⟨a.2, by rw [← h']; exact ha⟩)
            simp [this]
          rw [hid]
    · have hmem : k ∈ t.map Prod.fst := by
        simp at h ⊢
        rcases h with h | h
        · exact absurd h.symm hk
        · exact h
      by_cases hk' : e.1 = k'
      · have hkk : ¬ k' = k := fun h' => hk (hk'.trans h')
        simp [List.find?_cons, hk, hk', hkk]
      · simp only [List.map_cons, hk, if_false, List.find?_cons, hk', decide_False]
        exact ih hmem

theorem get_set (m : GoMap K V) (k k' : K) (v : V) :
    (m.set k v).get k' = if k' = k then some v else m.get k' := by
  unfold get set
  by_cases h : k ∈ m.entries.map Prod.fst
  · simp only [h, dif_pos, find_replace _ _ _ _ h]
    by_cases hk : k' = k <;> simp [hk]
  · simp only [h, dif_neg, not_false_eq_true, find_append_new _ _ _ _ h]
    by_cases hk : k' = k <;> simp [hk]

theorem get_set_self (m : GoMap K V) (k : K) (v : V) : (m.set k v).get k = some v := by
  simp [get_set]

theorem get_set_ne (m : GoMap K V) (k k' : K) (v : V) (h : k' ≠ k) :
    (m.set k v).get k' = m.get k' := by
  simp [get_set, h]

theorem get_eq_some_iff (m : GoMap K V) (k : K) (v : V) :
    m.get k = some v ↔ (k, v) ∈ m.entries := by
  obtain ⟨l, hl⟩ := m
  unfold get
  simp only
  induction l with
  | nil => simp
  | cons e t ih =>
    have ht : (t.map Prod.fst).Nodup := (List.nodup_cons.mp hl).2
    have hnot : e.1 ∉ t.map Prod.fst := (List.nodup_cons.mp hl).1
    by_cases hk : e.1 = k
    · simp only [List.find?_cons, hk, decide_True, Option.map_some', Option.some.injEq,
        List.mem_cons]
      constructor
      · intro h
        left
        rw [← h, ← hk]
      · rintro (h | h)
        · rw [← h]
        · exact absurd (by simp; exact ⟨v, by rw [hk]; exact h⟩) hnot
    · simp only [List.find?_cons, hk, decide_False, List.mem_cons]
      rw [ih ht]
      constructor
      · exact Or.inr
      · rintro (h | h)
        · exact absurd (by rw [← h]) hk
        · exact h

theorem get_eq_none_iff (m : GoMap K V) (k : K) : m.get k = none ↔ k ∉ m.keys := by
  unfold get keys
  simp only [Option.map_eq_none', List.find?_eq_none, List.mem_map, not_exists, not_and]
  constructor
  · intro h e he hk
    simpa [hk] using h e he
  · intro h e he
    simpa using h e he

end GoMap

theorem GoMap.len_delete_of_single {V : Type} (m : GoMap String V) (k : String) (v : V)
    (hget : m.get k = some v) (hlen : m.len = 1) : (m.delete k).len = 0 := by
  have hmem := (GoMap.get_eq_some_iff m k v).mp hget
  unfold GoMap.len at hlen
  obtain ⟨e, he⟩ := List.length_eq_one.mp hlen
  rw [he] at hmem
  simp at hmem
  unfold GoMap.len GoMap.delete
  simp [he, ← hmem]

theorem GoMap.len_pos_of_get {V : Type} (m : GoMap String V) (k : String)
    (h : (m.get k).isSome) : m.len ≠ 0 := by
  intro h0
  unfold GoMap.len at h0
  have he : m.entries = [] := List.length_eq_zero.mp h0
  unfold GoMap.get at h
  simp [he] at h

/-! ## The registry: deregistration -/

theorem removeEdsCon_missing (st : State) (clusterName node : String) (connection : ConnRef)
    (hc : st.edsClusters.get clusterName = none) :
    removeEdsCon st clusterName node connection = .done st := by
  simp [removeEdsCon, getEdsCluster, hc]

theorem removeEdsCon_same (st : State) (clusterName node : String) (connection : ConnRef)
    (c : EdsCluster) (hc : st.edsClusters.get clusterName = some c)
    (hold : c.EdsClients.get node = some connection) :
    removeEdsCon st clusterName node connection
      = .done { st with
          edsClusters :=
            if (c.EdsClients.delete node).len = 0 then st.edsClusters.delete clusterName
            else st.edsClusters.set clusterName { c with EdsClients := c.EdsClients.delete node } } := by
  simp only [removeEdsCon, getEdsCluster, hc, hold, ne_eq, not_true_eq_false, if_false]
  split <;> rfl

theorem removeEdsCon_stale (st : State) (clusterName node : String) (connection old : ConnRef)
    (c : EdsCluster) (hc : st.edsClusters.get clusterName = some c)
    (hold : c.EdsClients.get node = some old) (hne : old ≠ connection) :
    removeEdsCon st clusterName node connection = .done st := by
  have h1 : some old ≠ some connection := fun h => hne (Option.some.inj h)
  simp only [removeEdsCon, getEdsCluster, hc, hold, ne_eq]
  rw [if_pos h1]
  split <;> rfl

theorem removeEdsCon_absent_state (st : State) (clusterName node : String) (connection : ConnRef)
    (c : EdsCluster) (hc : st.edsClusters.get clusterName = some c)
    (hold : c.EdsClients.get node = none) :
    (removeEdsCon st clusterName node connection).state = st := by
  simp only [removeEdsCon, getEdsCluster, hc, hold, ne_eq]
  rw [if_pos (by simp)]
  split <;> rfl

theorem watcher_after_same (st : State) (clusterName node other : String) (c : EdsCluster) :
    watcher { st with
        edsClusters :=
          if (c.EdsClients.delete node).len = 0 then st.edsClusters.delete clusterName
          else st.edsClusters.set clusterName { c with EdsClients := c.EdsClients.delete node } }
      clusterName other = (c.EdsClients.delete node).get other := by
  unfold watcher
  by_cases hlen : (c.EdsClients.delete node).len = 0
  · simp only [hlen, if_true, GoMap.get_delete_self, Option.bind_none]
    symm
    cases hg : (c.EdsClients.delete node).get other with
    | none => rfl
    | some v =>
      exact absurd hlen (GoMap.len_pos_of_get _ other (by simp [hg]))
  · simp only [hlen, if_false, GoMap.get_set_self]
    rfl

/-- C1: `removeEdsCon(cluster, node, con)` deletes the watcher entry under `node` exactly when
the connection stored under `node` is the same object as `con`, and then it completes; when a
different connection object is stored the call completes and leaves the whole state (the
watcher map and the cache) as it was; and in every case the entries under other node ids of
that cluster are unchanged. -/
theorem removeEdsCon_identity (st : State) (clusterName node : String) (connection : ConnRef) :
    (((watcher st clusterName node).isSome ∧
        watcher (removeEdsCon st clusterName node connection).state clusterName node = none)
      ↔ watcher st clusterName node = some connection) ∧
    (watcher st clusterName node = some connection →
      (removeEdsCon st clusterName node connection).isDone = true) ∧
    (∀ old, watcher st clusterName node = some old → old ≠ connection →
      removeEdsCon st clusterName node connection = .done st) ∧
    (∀ other, other ≠ node →
      watcher (removeEdsCon st clusterName node connection).state clusterName other
        = watcher st clusterName other) := by
  cases hc : st.edsClusters.get clusterName with
  | none =>
    have hw : ∀ n, watcher st clusterName n = none := fun n => by simp [watcher, hc]
    rw [removeEdsCon_missing st clusterName node connection hc]
    simp [hw, Exec.state]
  | some c =>
    have hw : ∀ n, watcher st clusterName n = c.EdsClients.get n := fun n => by
      simp [watcher, hc]
    cases hold : c.EdsClients.get node with
    | none =>
      rw [removeEdsCon_absent_state st clusterName node connection c hc hold]
      simp [hw, hold]
    | some old =>
      by_cases hsame : old = connection
      · subst hsame
        rw [removeEdsCon_same st clusterName node old c hc hold]
        simp only [Exec.state, Exec.isDone, watcher_after_same st clusterName node _ c, hw,
          hold, GoMap.get_delete_self]
        refine ⟨by simp, by simp, ?_, ?_⟩
        · intro o ho hne
          exact absurd (Option.some.inj ho).symm hne
        · intro other hne
          exact GoMap.get_delete_ne _ _ _ hne
      · rw [removeEdsCon_stale st clusterName node connection old c hc hold hsame]
        simp only [Exec.state, hw, hold]
        refine ⟨by simp [hsame], ?_, by simp, by simp⟩
        intro h
        exact absurd (Option.some.inj h) hsame

/-- C1, at a sample: cluster `"k"` stores connection `1` under `"n1"`; a deregistration by
the different connection object `7` under the same node id leaves the state as it was. -/
theorem removeEdsCon_identity_witness :
    watcher sampleTwoWatchers "k" "n1" = some 1 ∧ (1 : ConnRef) ≠ 7 ∧
      removeEdsCon sampleTwoWatchers "k" "n1" 7 = .done sampleTwoWatchers :=
  ⟨by decide, by decide,
    (removeEdsCon_identity sampleTwoWatchers "k" "n1" 7).2.2.1 1 (by decide) (by decide)⟩

/-- C2: when cluster `k` has exactly one watcher `(node, con)`, `removeEdsCon(k, node, con)`
completes and leaves `k` absent from the cache (`getEdsCluster` finds nothing), and the next
`getOrAddEdsCluster(k)` returns a new record with an empty watcher map and no load assignment;
and when the record of `k` holds a watcher under another node id, the record stays in the
cache after the call. -/
theorem removeEdsCon_last_watcher (st : State) (k node : String) (con : ConnRef) (c : EdsCluster)
    (hc : getEdsCluster st k = some c) :
    (c.EdsClients.get node = some con → c.EdsClients.len = 1 →
      (removeEdsCon st k node con).isDone = true ∧
      getEdsCluster (removeEdsCon st k node con).state k = none ∧
      (getOrAddEdsCluster (removeEdsCon st k node con).state k).1
        = { LoadAssignment := none, FirstUse := st.now, EdsClients := GoMap.empty,
            NonEmptyTime := 0 }) ∧
    ((∃ other, other ≠ node ∧ (c.EdsClients.get other).isSome = true) →
      (getEdsCluster (removeEdsCon st k node con).state k).isSome = true) := by
  unfold getEdsCluster at hc
  constructor
  · intro hget hlen
    have h0 := GoMap.len_delete_of_single c.EdsClients node con hget hlen
    rw [removeEdsCon_same st k node con c hc hget]
    simp only [h0, if_true, Exec.isDone, Exec.state, getEdsCluster, getOrAddEdsCluster,
      GoMap.get_delete_self, true_and]
  · rintro ⟨other, hne, hsome⟩
    cases hold : c.EdsClients.get node with
    | none =>
      rw [removeEdsCon_absent_state st k node con c hc hold]
      simp [getEdsCluster, hc]
    | some old =>
      by_cases hsame : old = con
      · subst hsame
        have hpos : (c.EdsClients.delete node).len ≠ 0 :=
          GoMap.len_pos_of_get _ other (by rw [GoMap.get_delete_ne _ _ _ hne]; exact hsome)
        rw [removeEdsCon_same st k node old c hc hold]
        simp only [hpos, if_false, Exec.state, getEdsCluster, GoMap.get_set_self,
          Option.isSome_some]
      · rw [removeEdsCon_stale st k node con old c hc hold hsame]
        simp [Exec.state, getEdsCluster, hc]

/-- C2, at a sample: connection `1` under `"n1"` is the only watcher of `"k"`; after its
deregistration `"k"` is gone from the cache and is created afresh on the next use. -/
theorem removeEdsCon_last_watcher_witness :
    getEdsCluster (removeEdsCon sampleOneWatcher "k" "n1" 1).state "k" = none ∧
    (getOrAddEdsCluster (removeEdsCon sampleOneWatcher "k" "n1" 1).state "k").1
      = { LoadAssignment := none, FirstUse := 5, EdsClients := GoMap.empty, NonEmptyTime := 0 } :=
  ((removeEdsCon_last_watcher sampleOneWatcher "k" "n1" 1
      { LoadAssignment := some { ClusterName := "k", Endpoints := [] }, FirstUse := 0
        EdsClients := GoMap.empty.set "n1" 1, NonEmptyTime := 0 }
      (by decide)).1 (by decide) (by decide)).2

/-! ## Zone grouping -/

theorem endpointOf_isSome (env : Environment) (inst : ServiceInstance) :
    (endpointOf env inst).isSome = (env.ParseIP inst.Endpoint.Address).isSome := by
  unfold endpointOf newEndpoint
  cases env.ParseIP inst.Endpoint.Address <;> rfl

theorem zoneEndpoints_cons (env : Environment) (inst : ServiceInstance)
    (rest : List ServiceInstance) (z : String) :
    zoneEndpoints env (inst :: rest) z
      = (if inst.AvailabilityZone = z then (endpointOf env inst).toList else [])
          ++ zoneEndpoints env rest z := by
  unfold zoneEndpoints
  by_cases hz : inst.AvailabilityZone = z
  · cases he : endpointOf env inst <;> simp [List.filter_cons, hz, List.filterMap_cons, he]
  · simp [List.filter_cons, hz]

/-- What the loop leaves under zone `z`: the old group extended by the endpoints of the
instances of that zone, or a new group, or nothing when no endpoint of that zone was built. -/
theorem localityEpLoop_get (env : Environment) (instances : List ServiceInstance) :
    ∀ (m : GoMap String LocalityLbEndpoints) (z : String),
      (localityEpLoop env instances m).get z
        = if zoneEndpoints env instances z = [] then m.get z
          else some
            { Zone := ((m.get z).map LocalityLbEndpoints.Zone).getD z
              LbEndpoints := ((m.get z).map LocalityLbEndpoints.LbEndpoints).getD []
                ++ zoneEndpoints env instances z } := by
  induction instances with
  | nil => intro m z; simp [localityEpLoop, zoneEndpoints]
  | cons inst rest ih =>
    intro m z
    rw [zoneEndpoints_cons]
    unfold localityEpLoop
    unfold endpointOf
    cases hnew : newEndpoint env inst.Endpoint.Address (toUint32 inst.Endpoint.Port) with
    | error e =>
      simp only [Option.toList, ite_self, List.nil_append]
      exact ih m z
    | ok lbEp =>
      simp only [Option.toList]
      rw [ih, GoMap.get_set]
      by_cases hz : inst.AvailabilityZone = z
      · subst hz
        simp only [if_true, List.singleton_append, List.cons_append, List.nil_append]
        cases hm : m.get inst.AvailabilityZone with
        | none =>
          by_cases hr : zoneEndpoints env rest inst.AvailabilityZone = []
          · simp [hr]
          · simp [hr]
        | some g =>
          by_cases hr : zoneEndpoints env rest inst.AvailabilityZone = []
          · simp [hr]
          · simp [hr]
      · have hz2 : ¬ z = inst.AvailabilityZone := fun h => hz h.symm
        simp only [hz, hz2, if_false, List.nil_append]

theorem localityEpLoop_empty_get (env : Environment) (instances : List ServiceInstance)
    (z : String) :
    (localityEpLoop env instances GoMap.empty).get z
      = if zoneEndpoints env instances z = [] then none
        else some { Zone := z, LbEndpoints := zoneEndpoints env instances z } := by
  rw [localityEpLoop_get]
  simp [GoMap.get_empty]

/-- Every entry of the final `localityEpMap` holds, under its key `z`, the group of zone `z`
with the endpoints of that zone. -/
theorem localityEpLoop_entry (env : Environment) (instances : List ServiceInstance)
    (e : String × LocalityLbEndpoints)
    (he : e ∈ (localityEpLoop env instances GoMap.empty).entries) :
    zoneEndpoints env instances e.1 ≠ [] ∧
      e.2 = { Zone := e.1, LbEndpoints := zoneEndpoints env instances e.1 } := by
  have hget := (GoMap.get_eq_some_iff _ e.1 e.2).mpr he
  rw [localityEpLoop_empty_get] at hget
  by_cases hr : zoneEndpoints env instances e.1 = []
  · simp [hr] at hget
  · simp only [hr, if_false, Option.some.injEq] at hget
    exact ⟨hr, hget.symm⟩

theorem localityLbEndpoints_zones (env : Environment) (instances : List ServiceInstance) :
    (localityLbEndpointsFromInstances env instances).map LocalityLbEndpoints.Zone
      = (localityEpLoop env instances GoMap.empty).keys := by
  unfold localityLbEndpointsFromInstances GoMap.values GoMap.keys
  rw [List.map_map]
  apply List.map_congr_left
  intro e he
  have h := (localityEpLoop_entry env instances e he).2
  simp only [Function.comp]
  rw [h]

theorem mem_zones_iff (env : Environment) (instances : List ServiceInstance) (z : String) :
    z ∈ (localityEpLoop env instances GoMap.empty).keys ↔ zoneEndpoints env instances z ≠ [] := by
  constructor
  · intro h
    intro hr
    have := (GoMap.get_eq_none_iff (localityEpLoop env instances GoMap.empty) z).mp
      (by rw [localityEpLoop_empty_get]; simp [hr])
    exact this h
  · intro hr
    by_contra hn
    have := (GoMap.get_eq_none_iff (localityEpLoop env instances GoMap.empty) z).mpr hn
    rw [localityEpLoop_empty_get] at this
    simp [hr] at this

theorem filterMap_map_some {α β : Type} (f : α → Option β) (l : List α)
    (h : ∀ a ∈ l, (f a).isSome = true) : (l.filterMap f).map some = l.map f := by
  induction l with
  | nil => rfl
  | cons a t ih =>
    have ha := h a (List.mem_cons_self a t)
    have ht : ∀ b ∈ t, (f b).isSome = true := fun b hb => h b (List.mem_cons_of_mem a hb)
    cases hf : f a with
    | none => simp [hf] at ha
    | some b => simp [List.filterMap_cons, hf, ih ht]

theorem zoneEndpoints_ne_nil_iff (env : Environment) (instances : List ServiceInstance)
    (hparse : ∀ i ∈ instances, (env.ParseIP i.Endpoint.Address).isSome = true) (z : String) :
    zoneEndpoints env instances z ≠ [] ↔ z ∈ instances.map ServiceInstance.AvailabilityZone := by
  induction instances with
  | nil => simp [zoneEndpoints]
  | cons inst rest ih =>
    have hrest : ∀ i ∈ rest, (env.ParseIP i.Endpoint.Address).isSome = true :=
      fun i hi => hparse i (List.mem_cons_of_mem inst hi)
    have hsome : (endpointOf env inst).isSome = true := by
      rw [endpointOf_isSome]
      exact hparse inst (List.mem_cons_self inst rest)
    rw [zoneEndpoints_cons]
    by_cases hz : inst.AvailabilityZone = z
    · obtain ⟨e, he⟩ := Option.isSome_iff_exists.mp hsome
      simp [hz, he]
    · have hz2 : ¬ z = inst.AvailabilityZone := fun h => hz h.symm
      simp only [hz, if_false, List.nil_append, List.map_cons, List.mem_cons, hz2, false_or]
      exact ih hrest

/-- C3: for instances whose addresses all parse, `localityLbEndpointsFromInstances` returns
one group per distinct `AvailabilityZone` value (the empty zone included): as many groups
as distinct zones, no zone on two groups, the zones of the groups being those of the
instances, and each group holding, in order, exactly the endpoints built for the instances
of its own zone. -/
theorem localityLbEndpoints_one_group_per_zone (env : Environment)
    (instances : List ServiceInstance)
    (hparse : ∀ i ∈ instances, (env.ParseIP i.Endpoint.Address).isSome = true) :
    (localityLbEndpointsFromInstances env instances).length
      = (instances.map ServiceInstance.AvailabilityZone).dedup.length ∧
    ((localityLbEndpointsFromInstances env instances).map LocalityLbEndpoints.Zone).Nodup ∧
    (∀ z, z ∈ (localityLbEndpointsFromInstances env instances).map LocalityLbEndpoints.Zone
      ↔ z ∈ instances.map ServiceInstance.AvailabilityZone) ∧
    (∀ g ∈ localityLbEndpointsFromInstances env instances,
      g.LbEndpoints.map some
        = (instances.filter (fun i => decide (i.AvailabilityZone = g.Zone))).map
            (endpointOf env)) := by
  have hnodup :
      ((localityLbEndpointsFromInstances env instances).map LocalityLbEndpoints.Zone).Nodup := by
    rw [localityLbEndpoints_zones]
    exact (localityEpLoop env instances GoMap.empty).nodupKeys
  have hmem : ∀ z,
      z ∈ (localityLbEndpointsFromInstances env instances).map LocalityLbEndpoints.Zone
        ↔ z ∈ instances.map ServiceInstance.AvailabilityZone := by
    intro z
    rw [localityLbEndpoints_zones, mem_zones_iff, zoneEndpoints_ne_nil_iff env instances hparse]
  refine ⟨?_, hnodup, hmem, ?_⟩
  · have hperm :
        ((localityLbEndpointsFromInstances env instances).map LocalityLbEndpoints.Zone).Perm
          (instances.map ServiceInstance.AvailabilityZone).dedup :=
      (List.perm_ext_iff_of_nodup hnodup (List.nodup_dedup _)).mpr
        (fun z => by rw [hmem z, List.mem_dedup])
    have hlen := hperm.length_eq
    rw [List.length_map] at hlen
    exact hlen
  · intro g hg
    unfold localityLbEndpointsFromInstances GoMap.values at hg
    obtain ⟨e, he, heg⟩ := List.mem_map.mp hg
    have h := (localityEpLoop_entry env instances e he).2
    rw [← heg, h]
    simp only
    unfold zoneEndpoints
    apply filterMap_map_some
    intro i hi
    rw [endpointOf_isSome]
    exact hparse i (List.mem_of_mem_filter hi)

/-- C3, at a sample: three instances in the zones `"az1"`, `""`, `"az1"` give two groups. -/
theorem localityLbEndpoints_one_group_per_zone_witness :
    (localityLbEndpointsFromInstances sampleEnv
      [{ Endpoint := { Address := "10.1.1.0", Port := 80 }, AvailabilityZone := "az1" },
       { Endpoint := { Address := "10.1.1.1", Port := 80 }, AvailabilityZone := "" },
       { Endpoint := { Address := "10.1.1.1", Port := 81 }, AvailabilityZone := "az1" }]).length
      = 2 :=
  (localityLbEndpoints_one_group_per_zone sampleEnv
      [{ Endpoint := { Address := "10.1.1.0", Port := 80 }, AvailabilityZone := "az1" },
       { Endpoint := { Address := "10.1.1.1", Port := 80 }, AvailabilityZone := "" },
       { Endpoint := { Address := "10.1.1.1", Port := 81 }, AvailabilityZone := "az1" }]
      (by decide)).1.trans (by decide)

/-! ## Endpoints are kept one for one -/

theorem replace_flatMap_perm (l : List (String × LocalityLbEndpoints)) (k : String)
    (g : LocalityLbEndpoints) (x : LbEndpoint) (hnodup : (l.map Prod.fst).Nodup)
    (hmem : k ∈ l.map Prod.fst)
    (hg : ∀ e ∈ l, e.1 = k → g.LbEndpoints = e.2.LbEndpoints ++ [x]) :
    (((l.map (fun e => if e.1 = k then (k, g) else e)).map Prod.snd).flatMap
        LocalityLbEndpoints.LbEndpoints).Perm
      ((l.map Prod.snd).flatMap LocalityLbEndpoints.LbEndpoints ++ [x]) := by
  induction l with
  | nil => simp at hmem
  | cons e t ih =>
    have hnot : e.1 ∉ t.map Prod.fst := (List.nodup_cons.mp hnodup).1
    have ht : (t.map Prod.fst).Nodup := (List.nodup_cons.mp hnodup).2
    by_cases hk : e.1 = k
    · have hid : t.map (fun e => if e.1 = k then (k, g) else e) = t := by
        conv_rhs => rw [← List.map_id t]
        apply List.map_congr_left
        intro a ha
        have : ¬ a.1 = k := by
          intro h'
          apply hnot
          rw [hk, ← h']
          exact List.mem_map_of_mem Prod.fst ha
        simp [this]
      simp only [List.map_cons, hk, if_true, hid, List.flatMap_cons,
        hg e (List.mem_cons_self e t) hk, List.append_assoc]
      exact List.Perm.append_left _ List.perm_append_comm
    · have hmem2 : k ∈ t.map Prod.fst := by
        simp only [List.map_cons, List.mem_cons] at hmem
        rcases hmem with h | h
        · exact absurd h.symm hk
        · exact h
      have hg2 : ∀ a ∈ t, a.1 = k → g.LbEndpoints = a.2.LbEndpoints ++ [x] :=
        fun a ha => hg a (List.mem_cons_of_mem e ha)
      simp only [List.map_cons, hk, if_false, List.flatMap_cons, List.append_assoc]
      exact List.Perm.append_left _ (ih ht hmem2 hg2)

theorem set_flatMap_perm (m : GoMap String LocalityLbEndpoints) (k zone : String)
    (x : LbEndpoint) :
    ((m.set k
        { Zone := (match m.get k with
            | some found => found
            | none => { Zone := zone, LbEndpoints := [] }).Zone
          LbEndpoints := (match m.get k with
            | some found => found
            | none => { Zone := zone, LbEndpoints := [] }).LbEndpoints ++ [x] }).values.flatMap
        LocalityLbEndpoints.LbEndpoints).Perm
      (m.values.flatMap LocalityLbEndpoints.LbEndpoints ++ [x]) := by
  unfold GoMap.set GoMap.values
  by_cases hmem : k ∈ m.entries.map Prod.fst
  · simp only [hmem, dif_pos]
    apply replace_flatMap_perm _ _ _ _ m.nodupKeys hmem
    intro e he hk
    have hget : m.get k = some e.2 := (GoMap.get_eq_some_iff m k e.2).mpr (by rw [← hk]; exact he)
    simp [hget]
  · have hget : m.get k = none := (GoMap.get_eq_none_iff m k).mpr hmem
    simp only [hmem, dif_neg, not_false_eq_true, hget, List.map_append, List.map_cons,
      List.map_nil, List.flatMap_append, List.flatMap_cons, List.flatMap_nil, List.nil_append,
      List.append_nil]
    exact List.Perm.refl _

theorem localityEpLoop_perm (env : Environment) (instances : List ServiceInstance) :
    ∀ m : GoMap String LocalityLbEndpoints,
      ((localityEpLoop env instances m).values.flatMap LocalityLbEndpoints.LbEndpoints).Perm
        (m.values.flatMap LocalityLbEndpoints.LbEndpoints
          ++ instances.filterMap (endpointOf env)) := by
  induction instances with
  | nil => intro m; simp [localityEpLoop]
  | cons inst rest ih =>
    intro m
    unfold localityEpLoop
    rw [List.filterMap_cons]
    unfold endpointOf
    cases hnew : newEndpoint env inst.Endpoint.Address (toUint32 inst.Endpoint.Port) with
    | error e => exact ih m
    | ok lbEp =>
      simp only
      refine (ih _).trans ?_
      have h := set_flatMap_perm m inst.AvailabilityZone inst.AvailabilityZone lbEp
      refine (List.Perm.append_right _ h).trans ?_
      simp only [List.append_assoc, List.singleton_append]
      exact List.Perm.refl _

theorem toUint32_cast (x : Int) : ((toUint32 x : Nat) : Int) = x % 2 ^ 32 := by
  unfold toUint32
  exact Int.toNat_of_nonneg (Int.emod_nonneg x (by norm_num))

/-- C4, as stated, fails: an instance with the parseable address `10.1.1.0` and the port
`4294967376` (a Go `int`) yields an endpoint with port `80`, so the endpoints of the groups
are not those of the instances with the same address and port. -/
theorem localityLbEndpoints_port_counterexample :
    ¬ (((localityLbEndpointsFromInstances sampleEnv
          [{ Endpoint := { Address := "10.1.1.0", Port := 4294967376 },
             AvailabilityZone := "az1" }]).flatMap LocalityLbEndpoints.LbEndpoints).map
        (fun e => (e.Address, (e.PortValue : Int)))).Perm
      ((([{ Endpoint := { Address := "10.1.1.0", Port := 4294967376 },
            AvailabilityZone := "az1" }] : List ServiceInstance).filter
          (fun i => (sampleEnv.ParseIP i.Endpoint.Address).isSome)).map
        (fun i => (i.Endpoint.Address, i.Endpoint.Port))) := by
  decide

/-- C4, amended: `newEndpoint(address, port)` fails exactly when `address` does not parse as
an IP address, and on success the endpoint carries the address string and the port unchanged;
for every list of instances the endpoints in the groups returned by
`localityLbEndpointsFromInstances` are, one for one, the endpoints built for the instances
whose address parses, an instance whose address does not parse building none; and the
endpoint built for an instance carries the instance's address and the instance's port
converted to `uint32`, that is the port modulo `2 ^ 32`. -/
theorem newEndpoint_keeps_endpoints (env : Environment) :
    (∀ address port,
      ((∃ msg, newEndpoint env address port = .error msg) ↔ env.ParseIP address = none) ∧
      ∀ e, newEndpoint env address port = .ok e → e.Address = address ∧ e.PortValue = port) ∧
    (∀ instances,
      ((localityLbEndpointsFromInstances env instances).flatMap
          LocalityLbEndpoints.LbEndpoints).Perm
        (instances.filterMap (endpointOf env))) ∧
    (∀ inst,
      (endpointOf env inst = none ↔ env.ParseIP inst.Endpoint.Address = none) ∧
      ∀ e, endpointOf env inst = some e →
        e.Address = inst.Endpoint.Address ∧ (e.PortValue : Int) = inst.Endpoint.Port % 2 ^ 32) := by
  refine ⟨?_, ?_, ?_⟩
  · intro address port
    unfold newEndpoint
    cases hp : env.ParseIP address with
    | none => simp
    | some ip =>
      refine ⟨by simp, ?_⟩
      intro e he
      simp only [Except.ok.injEq] at he
      rw [← he]
      exact ⟨rfl, rfl⟩
  · intro instances
    have h := localityEpLoop_perm env instances GoMap.empty
    simpa [localityLbEndpointsFromInstances, GoMap.values, GoMap.empty] using h
  · intro inst
    unfold endpointOf newEndpoint
    cases hp : env.ParseIP inst.Endpoint.Address with
    | none => simp
    | some ip =>
      refine ⟨by simp, ?_⟩
      intro e he
      simp only [Option.some.injEq] at he
      rw [← he]
      exact ⟨rfl, toUint32_cast _⟩

/-- C4 amended, at a sample: the endpoint built for the instance `10.1.1.0:80` carries that
address and the port `80`. -/
theorem newEndpoint_keeps_endpoints_witness :
    ({ Address := "10.1.1.0", Ipv4Compat := true, PortValue := 80 } : LbEndpoint).Address
        = "10.1.1.0" ∧
      (((80 : Nat) : Int) = (80 : Int) % 2 ^ 32) :=
  ((newEndpoint_keeps_endpoints sampleEnv).2.2
      { Endpoint := { Address := "10.1.1.0", Port := 80 }, AvailabilityZone := "az1" }).2
    { Address := "10.1.1.0", Ipv4Compat := true, PortValue := 80 } (by decide)

/-! ## Response construction -/

theorem updateCluster_assignment_none (env : Environment) (now : Nat) (n : String)
    (c : EdsCluster) :
    (updateCluster env now n c).LoadAssignment = none
      ↔ c.LoadAssignment = none ∧ ∃ err, updateClusterLookup env n = .error err := by
  unfold updateCluster
  cases hl : updateClusterLookup env n with
  | error e => simp
  | ok instances => simp

/-- When `clusterEndpoints` stops at the nil message: the cache holds no assignment for the
cluster and the registry lookup of `updateCluster` fails. -/
theorem clusterEndpoints_isPanicked (env : Environment) (st : State) (n : String) :
    (clusterEndpoints env st n).isPanicked = true
      ↔ assignmentAt st n = none ∧ ∃ err, updateClusterLookup env n = .error err := by
  unfold clusterEndpoints getOrAddEdsCluster loadAssignment assignmentAt
  cases hc : st.edsClusters.get n with
  | none =>
    have hu := updateCluster_assignment_none env st.now n
      { LoadAssignment := none, FirstUse := st.now, EdsClients := GoMap.empty, NonEmptyTime := 0 }
    cases hU : (updateCluster env st.now n
      { LoadAssignment := none, FirstUse := st.now, EdsClients := GoMap.empty,
        NonEmptyTime := 0 }).LoadAssignment with
    | none =>
      rw [hU] at hu
      simp only [hU, Ret.isPanicked, Option.bind_none, true_and, true_iff]
      exact ⟨rfl, (hu.mp rfl).2⟩
    | some l =>
      rw [hU] at hu
      simp only [hU, Ret.isPanicked, Option.bind_none, true_and, Bool.false_eq_true, false_iff]
      intro h
      exact absurd (hu.mpr ⟨rfl, h.2⟩) (by simp)
  | some c =>
    cases hl : c.LoadAssignment with
    | some l => simp [Ret.isPanicked, hl]
    | none =>
      have hu := updateCluster_assignment_none env st.now n c
      cases hU : (updateCluster env st.now n c).LoadAssignment with
      | none =>
        rw [hU] at hu
        simp only [hl, hU, Ret.isPanicked, Option.bind_some, true_and, true_iff]
        exact ⟨hl, (hu.mp rfl).2⟩
      | some l =>
        rw [hU] at hu
        simp only [hl, hU, Ret.isPanicked, Option.bind_some, true_and, Bool.false_eq_true,
          false_iff]
        intro h
        exact absurd (hu.mpr ⟨hl, h.2⟩) (by simp)

/-- C5, the code at the failing input. The registry lookup fails for the cluster
`broken|http`, which has no cached assignment. `endpoints` asked for
`hello.default.svc.cluster.local|http` and `broken|http`, or for `broken|http` alone, passes
the nil assignment to `types.MarshalAny` and stops at the nil dereference: no response is
produced, where the claim has a response without a resource for that cluster. Asked for
the first cluster alone it returns a response with one resource. -/
theorem endpoints_nil_assignment_panics :
    updateClusterLookup sampleEnv "broken|http" = .error "registry unavailable" ∧
    assignmentAt sampleOneWatcher "broken|http" = none ∧
    (endpoints sampleEnv sampleOneWatcher
      ["hello.default.svc.cluster.local|http", "broken|http"]).isPanicked = true ∧
    (endpoints sampleEnv sampleOneWatcher
      ["hello.default.svc.cluster.local|http", "broken|http"]).value = none ∧
    (endpoints sampleEnv sampleOneWatcher ["broken|http"]).isPanicked = true ∧
    ((endpoints sampleEnv sampleOneWatcher
      ["hello.default.svc.cluster.local|http"]).value.map
        (fun response => response.Resources.length)) = some 1 :=
  ⟨rfl, by decide, by decide, by decide, by decide, by decide⟩

/-! ## Connection identifiers are unique -/

theorem digitVal_digitChar (d : Nat) (h : d < 10) : digitVal (Nat.digitChar d) = d := by
  interval_cases d <;> rfl

theorem digitChar_ne_dash (d : Nat) (h : d < 10) : Nat.digitChar d ≠ '-' := by
  interval_cases d <;> decide

theorem toDigitsCore_append (fuel : Nat) : ∀ (n : Nat) (ds : List Char),
    Nat.toDigitsCore 10 fuel n ds = Nat.toDigitsCore 10 fuel n [] ++ ds := by
  induction fuel with
  | zero => intro n ds; simp [Nat.toDigitsCore]
  | succ f ih =>
    intro n ds
    simp only [Nat.toDigitsCore]
    split
    · simp
    · rw [ih (n / 10) (Nat.digitChar (n % 10) :: ds), ih (n / 10) [Nat.digitChar (n % 10)]]
      simp

theorem decode_toDigitsCore (fuel : Nat) : ∀ n, n < fuel →
    decodeDigits (Nat.toDigitsCore 10 fuel n []) = n := by
  induction fuel with
  | zero => intro n h; omega
  | succ f ih =>
    intro n h
    simp only [Nat.toDigitsCore]
    split
    · rename_i h0
      have : n < 10 := by omega
      simp [decodeDigits, Nat.mod_eq_of_lt this, digitVal_digitChar n this]
    · rename_i h0
      rw [toDigitsCore_append]
      have hlt : n / 10 < f := by omega
      have := ih (n / 10) hlt
      unfold decodeDigits at this ⊢
      rw [List.foldl_append, this]
      simp [digitVal_digitChar _ (Nat.mod_lt n (by norm_num))]
      omega

theorem toDigitsCore_no_dash (fuel : Nat) : ∀ n, '-' ∉ Nat.toDigitsCore 10 fuel n [] := by
  induction fuel with
  | zero => intro n; simp [Nat.toDigitsCore]
  | succ f ih =>
    intro n
    simp only [Nat.toDigitsCore]
    split
    · simp
      exact (digitChar_ne_dash _ (Nat.mod_lt n (by norm_num))).symm
    · rw [toDigitsCore_append]
      simp
      exact ⟨ih _, (digitChar_ne_dash _ (Nat.mod_lt n (by norm_num))).symm⟩

theorem repr_data_injective (a b : Nat) (h : (Nat.repr a).data = (Nat.repr b).data) : a = b := by
  simp only [Nat.repr, Nat.toDigits, List.asString] at h
  have ha := decode_toDigitsCore (a + 1) a (by omega)
  have hb := decode_toDigitsCore (b + 1) b (by omega)
  rw [h] at ha
  omega

theorem repr_no_dash (a : Nat) : '-' ∉ (Nat.repr a).data := by
  simp only [Nat.repr, Nat.toDigits, List.asString]
  exact toDigitsCore_no_dash _ _

theorem suffix_after_sep {α : Type} (x : α) (p1 p2 s1 s2 : List α) (h1 : x ∉ s1) (h2 : x ∉ s2)
    (h : p1 ++ x :: s1 = p2 ++ x :: s2) : s1 = s2 := by
  rcases List.append_eq_append_iff.mp h with ⟨a, ha1, ha2⟩ | ⟨c, hc1, hc2⟩
  · cases a with
    | nil => simpa using ha2
    | cons y t =>
      simp at ha2
      exact absurd (by rw [ha2.2]; simp) h1
  · cases c with
    | nil => simpa using hc2.symm
    | cons y t =>
      simp at hc2
      exact absurd (by rw [hc2.2]; simp) h2

theorem connectionID_string_ne (r1 r2 : String) (a b : Nat) (h : a ≠ b) :
    r1 ++ "-" ++ Nat.repr a ≠ r2 ++ "-" ++ Nat.repr b := by
  intro heq
  have hd := congrArg String.data heq
  simp only [String.data_append] at hd
  rw [List.append_assoc, List.append_assoc] at hd
  exact h (repr_data_injective a b (suffix_after_sep '-' _ _ _ _ (repr_no_dash a) (repr_no_dash b) hd))

theorem wrapInt64_id (x : Int) (h1 : -2 ^ 63 ≤ x) (h2 : x < 2 ^ 63) : wrapInt64 x = x := by
  unfold wrapInt64
  norm_num at h1 h2 ⊢
  omega

theorem Itoa_nonneg (x : Int) (h : 0 ≤ x) : Itoa x = Nat.repr x.toNat := by
  cases x with
  | ofNat n => rfl
  | negSucc n => exact absurd h (by simp [Int.negSucc_lt_zero])

theorem connectionID_eq (st : State) (node : String) (h0 : 0 ≤ st.connectionNumber)
    (h1 : st.connectionNumber + 1 < 2 ^ 63) :
    connectionID st node
      = (node ++ "-" ++ Nat.repr (st.connectionNumber + 1).toNat,
          { st with connectionNumber := st.connectionNumber + 1 }) := by
  unfold connectionID
  have hw : wrapInt64 (st.connectionNumber + 1) = st.connectionNumber + 1 :=
    wrapInt64_id _ (by norm_num at h1 ⊢; omega) h1
  simp only [hw, Itoa_nonneg _ (by omega : (0 : Int) ≤ st.connectionNumber + 1)]

theorem connectionIDs_form (raws : List String) :
    ∀ st : State, 0 ≤ st.connectionNumber → st.connectionNumber + raws.length < 2 ^ 63 →
      ∀ s ∈ connectionIDs st raws,
        ∃ (r : String) (k : Nat), s = r ++ "-" ++ Nat.repr k ∧ st.connectionNumber < (k : Int) := by
  induction raws with
  | nil => intro st _ _ s hs; simp [connectionIDs] at hs
  | cons node rest ih =>
    intro st h0 h1 s hs
    simp only [List.length_cons, Nat.cast_add, Nat.cast_one] at h1
    have heq := connectionID_eq st node h0 (by omega)
    simp only [connectionIDs, heq, List.mem_cons] at hs
    rcases hs with hs | hs
    · exact ⟨node, (st.connectionNumber + 1).toNat, hs, by omega⟩
    · obtain ⟨r, k, hk, hlt⟩ :=
        ih { st with connectionNumber := st.connectionNumber + 1 } (by simp; omega)
          (by simp; omega) s hs
      exact ⟨r, k, hk, by simp at hlt; omega⟩

theorem connectionIDs_nodup (raws : List String) :
    ∀ st : State, 0 ≤ st.connectionNumber → st.connectionNumber + raws.length < 2 ^ 63 →
      (connectionIDs st raws).Nodup := by
  induction raws with
  | nil => intro st _ _; simp [connectionIDs]
  | cons node rest ih =>
    intro st h0 h1
    simp only [List.length_cons, Nat.cast_add, Nat.cast_one] at h1
    have heq := connectionID_eq st node h0 (by omega)
    simp only [connectionIDs, heq, List.nodup_cons]
    refine ⟨?_, ih _ (by simp; omega) (by simp; omega)⟩
    intro hmem
    obtain ⟨r, k, hk, hlt⟩ :=
      connectionIDs_form rest { st with connectionNumber := st.connectionNumber + 1 }
        (by simp; omega) (by simp; omega) _ hmem
    simp only at hlt
    exact connectionID_string_ne node r (st.connectionNumber + 1).toNat k (by omega) hk

/-- C8: while the counter has not overflowed, a call of `connectionID` sets the counter to
its value plus one and returns the raw id followed by `"-"` and the decimal form of the new
counter value; two calls made at different counter values return different strings whatever
the raw ids are, so the identifiers returned by any sequence of calls are pairwise distinct. -/
theorem connectionID_unique :
    (∀ (st : State) (node : String), 0 ≤ st.connectionNumber →
      st.connectionNumber + 1 < 2 ^ 63 →
      connectionID st node
        = (node ++ "-" ++ Itoa (st.connectionNumber + 1),
            { st with connectionNumber := st.connectionNumber + 1 })) ∧
    (∀ (st1 st2 : State) (raw1 raw2 : String), 0 ≤ st1.connectionNumber →
      st1.connectionNumber < st2.connectionNumber → st2.connectionNumber + 1 < 2 ^ 63 →
      (connectionID st1 raw1).1 ≠ (connectionID st2 raw2).1) ∧
    (∀ (st : State) (raws : List String), 0 ≤ st.connectionNumber →
      st.connectionNumber + raws.length < 2 ^ 63 → (connectionIDs st raws).Nodup) := by
  refine ⟨?_, ?_, fun st raws h0 h1 => connectionIDs_nodup raws st h0 h1⟩
  · intro st node h0 h1
    rw [connectionID_eq st node h0 h1, Itoa_nonneg _ (by omega)]
  · intro st1 st2 raw1 raw2 h0 hlt h1
    rw [connectionID_eq st1 raw1 h0 (by omega), connectionID_eq st2 raw2 (by omega) h1]
    exact connectionID_string_ne raw1 raw2 _ _ (by omega)

/-- C8, at a sample: the raw ids `"a"`, `"a"`, `"a-1"` and `"a-1-1"` get distinct
identifiers from the counter value `0` on. -/
theorem connectionID_unique_witness :
    (connectionIDs { sampleOneWatcher with connectionNumber := 0 }
      ["a", "a", "a-1", "a-1-1"]).Nodup :=
  connectionID_unique.2.2 { sampleOneWatcher with connectionNumber := 0 }
    ["a", "a", "a-1", "a-1-1"] (by decide) (by decide)

/-! ## Recomputation -/

/-- C9: when the registry lookup made by `updateCluster` returns an error the record is left
as it was, in particular its load assignment (present or absent) and its `NonEmptyTime`;
when the lookup succeeds the load assignment becomes a new one whose cluster name is the key
and whose endpoints are the zone grouping of the returned instances. -/
theorem updateCluster_result (env : Environment) (now : Nat) (clusterName : String)
    (edsCluster : EdsCluster) :
    (∀ err, updateClusterLookup env clusterName = .error err →
      updateCluster env now clusterName edsCluster = edsCluster) ∧
    (∀ instances, updateClusterLookup env clusterName = .ok instances →
      (updateCluster env now clusterName edsCluster).LoadAssignment
        = some { ClusterName := clusterName
                 Endpoints := localityLbEndpointsFromInstances env instances }) := by
  unfold updateCluster
  constructor
  · intro err h
    rw [h]
  · intro instances h
    rw [h]

/-- C9, at a sample: the registry fails for the key `broken|http`, and the record, which
holds an assignment, is left as it was. -/
theorem updateCluster_result_witness :
    updateCluster sampleEnv 9 "broken|http"
        { LoadAssignment := some { ClusterName := "broken|http", Endpoints := [] }, FirstUse := 1
          EdsClients := GoMap.empty, NonEmptyTime := 3 }
      = { LoadAssignment := some { ClusterName := "broken|http", Endpoints := [] }, FirstUse := 1
          EdsClients := GoMap.empty, NonEmptyTime := 3 } :=
  (updateCluster_result sampleEnv 9 "broken|http"
      { LoadAssignment := some { ClusterName := "broken|http", Endpoints := [] }, FirstUse := 1
        EdsClients := GoMap.empty, NonEmptyTime := 3 }).1 "registry unavailable" rfl

/-! ## Push to all watchers -/

theorem updateCluster_clients (env : Environment) (now : Nat) (k : String) (c : EdsCluster) :
    (updateCluster env now k c).EdsClients = c.EdsClients := by
  unfold updateCluster
  split <;> rfl

theorem pushClients_done (l : List ConnRef) :
    ∀ st : State, l.Nodup → (∀ c ∈ l, c ∉ st.pushFull) →
      pushClients l st = .done { st with pushFull := l.reverse ++ st.pushFull } := by
  induction l with
  | nil => intro st _ _; rfl
  | cons c t ih =>
    intro st hnd hfree
    have hc : c ∉ st.pushFull := hfree c (List.mem_cons_self c t)
    have hct : c ∉ t := (List.nodup_cons.mp hnd).1
    unfold pushClients chanSend
    simp only [hc, if_false, Exec.andThen]
    rw [ih _ (List.nodup_cons.mp hnd).2]
    · simp
    · intro x hx
      simp only [List.mem_cons, not_or]
      exact ⟨fun h => hct (h ▸ hx), hfree x (List.mem_cons_of_mem c hx)⟩

theorem pushClients_isDone (l : List ConnRef) :
    ∀ st : State, (pushClients l st).isDone = true → l.Nodup ∧ ∀ c ∈ l, c ∉ st.pushFull := by
  induction l with
  | nil => intro st _; simp
  | cons c t ih =>
    intro st h
    unfold pushClients chanSend at h
    by_cases hc : c ∈ st.pushFull
    · simp [hc, Exec.andThen, Exec.isDone] at h
    · simp only [hc, if_false, Exec.andThen] at h
      obtain ⟨hnd, hfree⟩ := ih _ h
      simp only [List.mem_cons, not_or] at hfree
      refine ⟨List.nodup_cons.mpr ⟨fun hx => (hfree c hx).1 rfl, hnd⟩, ?_⟩
      intro x hx
      rcases List.mem_cons.mp hx with hx | hx
      · rw [hx]; exact hc
      · exact (hfree x hx).2

theorem edsPushLoop_done (env : Environment) (es : List (String × EdsCluster)) :
    ∀ st : State, (es.flatMap (fun e => e.2.EdsClients.values)).Nodup →
      (∀ c ∈ es.flatMap (fun e => e.2.EdsClients.values), c ∉ st.pushFull) →
      edsPushLoop env es st
        = .done { st with
            pushFull := (es.flatMap (fun e => e.2.EdsClients.values)).reverse ++ st.pushFull
            edsClusters :=
              es.foldl (fun m e => m.set e.1 (updateCluster env st.now e.1 e.2)) st.edsClusters } := by
  induction es with
  | nil => intro st _ _; rfl
  | cons e t ih =>
    intro st hnd hfree
    obtain ⟨k, c⟩ := e
    simp only [List.flatMap_cons] at hnd hfree
    have hnd1 := (List.nodup_append.mp hnd).1
    have hnd2 := (List.nodup_append.mp hnd).2.1
    have hdisj := (List.nodup_append.mp hnd).2.2
    unfold edsPushLoop
    simp only [updateCluster_clients]
    rw [pushClients_done c.EdsClients.values
      { st with edsClusters := st.edsClusters.set k (updateCluster env st.now k c) } hnd1
      (fun x hx => hfree x (List.mem_append_left _ hx))]
    simp only [Exec.andThen]
    rw [ih _ hnd2]
    · simp [List.flatMap_cons]
    · intro x hx
      simp only [List.mem_append, List.mem_reverse, not_or]
      exact ⟨fun h => hdisj h hx, hfree x (List.mem_append_right _ hx)⟩

theorem edsPushLoop_isDone (env : Environment) (es : List (String × EdsCluster)) :
    ∀ st : State, (edsPushLoop env es st).isDone = true →
      (es.flatMap (fun e => e.2.EdsClients.values)).Nodup ∧
      ∀ c ∈ es.flatMap (fun e => e.2.EdsClients.values), c ∉ st.pushFull := by
  induction es with
  | nil => intro st _; simp
  | cons e t ih =>
    intro st h
    obtain ⟨k, c⟩ := e
    unfold edsPushLoop at h
    simp only [updateCluster_clients] at h
    have h1 : (pushClients c.EdsClients.values
        { st with edsClusters := st.edsClusters.set k (updateCluster env st.now k c) }).isDone
          = true := by
      cases hp : pushClients c.EdsClients.values
          { st with edsClusters := st.edsClusters.set k (updateCluster env st.now k c) } with
      | done s => rfl
      | blocked s => rw [hp] at h; simp [Exec.andThen, Exec.isDone] at h
      | panicked s => rw [hp] at h; simp [Exec.andThen, Exec.isDone] at h
    obtain ⟨hnd1, hfree1⟩ := pushClients_isDone _ _ h1
    rw [pushClients_done _ _ hnd1 hfree1] at h
    simp only [Exec.andThen] at h
    obtain ⟨hnd2, hfree2⟩ := ih _ h
    simp only [List.mem_append, List.mem_reverse, not_or] at hfree2
    simp only [List.flatMap_cons]
    refine ⟨List.nodup_append.mpr ⟨hnd1, hnd2, ?_⟩, ?_⟩
    · intro x hx1 hx2
      exact (hfree2 x hx2).1 hx1
    · intro x hx
      rcases List.mem_append.mp hx with hx | hx
      · exact hfree1 x hx
      · exact (hfree2 x hx).2

theorem foldl_set_get (f : String → EdsCluster → EdsCluster) (es : List (String × EdsCluster)) :
    ∀ (m : GoMap String EdsCluster) (k : String), (es.map Prod.fst).Nodup →
      (es.foldl (fun m e => m.set e.1 (f e.1 e.2)) m).get k
        = match es.find? (fun e => decide (e.1 = k)) with
          | some e => some (f k e.2)
          | none => m.get k := by
  induction es with
  | nil => intro m k _; rfl
  | cons e t ih =>
    intro m k hnd
    have hnot : e.1 ∉ t.map Prod.fst := (List.nodup_cons.mp hnd).1
    simp only [List.foldl_cons]
    rw [ih _ k (List.nodup_cons.mp hnd).2]
    by_cases hk : e.1 = k
    · have hnone : t.find? (fun e => decide (e.1 = k)) = none := by
        rw [List.find?_eq_none]
        intro a ha hak
        apply hnot
        rw [hk]
        simp only [decide_eq_true_eq] at hak
        rw [← hak]
        exact List.mem_map_of_mem Prod.fst ha
      simp only [hnone, List.find?_cons, hk, decide_True]
      rw [← hk, GoMap.get_set_self]
    · have hk2 : k ≠ e.1 := fun h => hk h.symm
      simp only [List.find?_cons, hk, decide_False]
      cases t.find? (fun e => decide (e.1 = k)) with
      | some e' => rfl
      | none => simp only; exact GoMap.get_set_ne _ _ _ _ hk2

/-- C10, as stated, fails: with one cluster watched by one connection whose wake channel is
already full the pass does not run to completion, and neither does it with empty channels
when the same connection is registered in two clusters. The full channel arises by itself:
a connection that asked for `a`, then for `b` and `c`, and whose stream then ended is still
registered in `a`; a first pass completes and leaves its signal pending, nothing receives
from the channel of the ended stream, and a second pass stops at it. -/
theorem edsPushAll_blocks_counterexample :
    (edsPushAll sampleEnv { sampleOneWatcher with pushFull := [1] }).isDone = false ∧
    (edsPushAll sampleEnv
      { sampleOneWatcher with
        edsClusters := sampleOneWatcher.edsClusters.set "k2"
          { LoadAssignment := none, FirstUse := 0
            EdsClients := GoMap.empty.set "n1" 1, NonEmptyTime := 0 } }).isDone = false ∧
    ((edsPushAll sampleEnv
        (closeStream
          (onRequests sampleEnv [(sampleRequest ["a"], none), (sampleRequest ["b", "c"], none)]
            sampleStart (newHandler 1 "peer")).state
          (onRequests sampleEnv [(sampleRequest ["a"], none), (sampleRequest ["b", "c"], none)]
            sampleStart (newHandler 1 "peer")).handler).state).isDone = true ∧
      (edsPushAll sampleEnv
        (edsPushAll sampleEnv
          (closeStream
            (onRequests sampleEnv [(sampleRequest ["a"], none), (sampleRequest ["b", "c"], none)]
              sampleStart (newHandler 1 "peer")).state
            (onRequests sampleEnv [(sampleRequest ["a"], none), (sampleRequest ["b", "c"], none)]
              sampleStart (newHandler 1 "peer")).handler).state).state).isDone = false) := by
  decide

/-- C10, amended: `edsPushAll` makes one blocking send on the capacity-one wake channel of
every connection registered in every cluster of the cache; the pass runs to completion
exactly when every send finds its channel empty, that is when no connection is registered
twice and no registered connection has a pending signal at the start; when it completes,
every registered connection has a pending wake signal and the record of every cluster that
was in the cache is the one `updateCluster` recomputes from it. -/
theorem edsPushAll_blocking (env : Environment) (st : State) :
    ((edsPushAll env st).isDone = true
      ↔ (registered st).Nodup ∧ ∀ c ∈ registered st, c ∉ st.pushFull) ∧
    ((edsPushAll env st).isDone = true →
      (∀ c ∈ registered st, c ∈ (edsPushAll env st).state.pushFull) ∧
      (∀ k, getEdsCluster (edsPushAll env st).state k
        = (getEdsCluster st k).map (updateCluster env st.now k))) := by
  have hdone : (registered st).Nodup → (∀ c ∈ registered st, c ∉ st.pushFull) →
      edsPushAll env st = .done { st with
        pushFull := (registered st).reverse ++ st.pushFull
        edsClusters := st.edsClusters.entries.foldl
          (fun m e => m.set e.1 (updateCluster env st.now e.1 e.2)) st.edsClusters } :=
    fun hnd hfree => edsPushLoop_done env st.edsClusters.entries st hnd hfree
  have hiff : (edsPushAll env st).isDone = true
      ↔ (registered st).Nodup ∧ ∀ c ∈ registered st, c ∉ st.pushFull := by
    constructor
    · exact edsPushLoop_isDone env st.edsClusters.entries st
    · rintro ⟨hnd, hfree⟩
      rw [hdone hnd hfree]
      rfl
  refine ⟨hiff, ?_⟩
  intro h
  obtain ⟨hnd, hfree⟩ := hiff.mp h
  rw [hdone hnd hfree]
  simp only [Exec.state, getEdsCluster]
  refine ⟨fun c hc => by simp [hc], ?_⟩
  intro k
  rw [foldl_set_get (updateCluster env st.now) _ _ k st.edsClusters.nodupKeys]
  unfold GoMap.get
  cases st.edsClusters.entries.find? (fun e => decide (e.1 = k)) <;> rfl

/-- C10 amended, at a sample: cluster `"k"` is watched by connections `1` and `2`, both with
an empty wake channel; the pass completes and leaves a signal pending on both. -/
theorem edsPushAll_blocking_witness :
    (1 : ConnRef) ∈ (edsPushAll sampleEnv sampleTwoWatchers).state.pushFull ∧
    (2 : ConnRef) ∈ (edsPushAll sampleEnv sampleTwoWatchers).state.pushFull :=
  ⟨((edsPushAll_blocking sampleEnv sampleTwoWatchers).2 (by decide)).1 1 (by decide),
    ((edsPushAll_blocking sampleEnv sampleTwoWatchers).2 (by decide)).1 2 (by decide)⟩

/-! ## The event loop: requests of a subscribed connection -/

theorem watcher_set_self (st : State) (k n : String) (c : EdsCluster) :
    watcher { st with edsClusters := st.edsClusters.set k c } k n = c.EdsClients.get n := by
  simp [watcher, GoMap.get_set_self]

theorem watcher_set_ne (st : State) (k k' n : String) (c : EdsCluster) (h : k' ≠ k) :
    watcher { st with edsClusters := st.edsClusters.set k c } k' n = watcher st k' n := by
  simp [watcher, GoMap.get_set_ne _ _ _ _ h]

theorem addEdsCon_cases (st : State) (c node : String) (con : ConnRef) :
    (∃ st1, addEdsCon st c node con = .done st1 ∧ watcher st1 c node = some con ∧
        ∀ k n, k ≠ c → watcher st1 k n = watcher st k n) ∨
      (∃ st1, addEdsCon st c node con = .blocked st1) := by
  unfold addEdsCon getOrAddEdsCluster
  cases hc : st.edsClusters.get c with
  | none =>
    left
    simp only [GoMap.get_empty, Exec.andThen]
    refine ⟨_, rfl, ?_, ?_⟩
    · simp [watcher, GoMap.get_set_self]
    · intro k n hk
      simp [watcher, GoMap.get_set_ne _ _ _ _ hk]
  | some rec =>
    simp only
    cases hex : rec.EdsClients.get node with
    | none =>
      left
      simp only [Exec.andThen]
      refine ⟨_, rfl, ?_, ?_⟩
      · simp [watcher, GoMap.get_set_self]
      · intro k n hk
        simp [watcher, GoMap.get_set_ne _ _ _ _ hk]
    | some old =>
      simp only [chanSend]
      by_cases hfull : old ∈ st.pushFull
      · right
        simp only [hfull, if_true, Exec.andThen]
        exact ⟨_, rfl⟩
      · left
        simp only [hfull, if_false, Exec.andThen]
        refine ⟨_, rfl, ?_, ?_⟩
        · simp [watcher, GoMap.get_set_self]
        · intro k n hk
          simp [watcher, GoMap.get_set_ne _ _ _ _ hk]

theorem addEdsConLoop_cases (node : String) (con : ConnRef) (names : List String) :
    ∀ st : State,
      (∃ st2, addEdsConLoop node con names st = .done st2 ∧
          (∀ n ∈ names, watcher st2 n node = some con) ∧
          (∀ k, watcher st k node = some con → watcher st2 k node = some con)) ∨
        (∃ st2, addEdsConLoop node con names st = .blocked st2) := by
  induction names with
  | nil => intro st; left; exact ⟨st, rfl, by simp, fun _ h => h⟩
  | cons c rest ih =>
    intro st
    unfold addEdsConLoop
    rcases addEdsCon_cases st c node con with ⟨st1, h1, hself, hother⟩ | ⟨st1, h1⟩
    · rw [h1]
      simp only [Exec.andThen]
      rcases ih st1 with ⟨st2, h2, hreg, hkeep⟩ | ⟨st2, h2⟩
      · left
        refine ⟨st2, h2, ?_, ?_⟩
        · intro n hn
          rcases List.mem_cons.mp hn with hn | hn
          · rw [hn]; exact hkeep c hself
          · exact hreg n hn
        · intro k hk
          apply hkeep
          by_cases hkc : k = c
          · rw [hkc]; exact hself
          · rw [hother k node hkc]; exact hk
      · right
        exact ⟨st2, h2⟩
    · right
      rw [h1]
      exact ⟨st1, rfl⟩

theorem onRequest_larger (env : Environment) (st : State) (h : Handler)
    (discReq : DiscoveryRequest) (sendErr : Option String)
    (hirr : h.initialRequestReceived = true)
    (hlarger : discReq.ResourceNames.length > h.Clusters.length) :
    onRequest env st h discReq sendErr
      = match addEdsConLoop (assignNode st h discReq).1 h.con discReq.ResourceNames
            (assignNode st h discReq).2 with
        | .done st2 =>
          pushEds env st2
            { h with node := (assignNode st h discReq).1, Clusters := discReq.ResourceNames,
                     Node := (assignNode st h discReq).1, initialRequestReceived := true } sendErr
        | .blocked st2 =>
          .blocked st2
            { h with node := (assignNode st h discReq).1, Clusters := discReq.ResourceNames,
                     Node := (assignNode st h discReq).1, initialRequestReceived := true }
        | .panicked st2 =>
          .panicked st2
            { h with node := (assignNode st h discReq).1, Clusters := discReq.ResourceNames,
                     Node := (assignNode st h discReq).1, initialRequestReceived := true } := by
  have hpos : discReq.ResourceNames.length > 0 := by omega
  unfold onRequest
  simp only [hirr, hlarger, and_self, if_true, Bool.false_eq_true, false_and, if_false]
  cases addEdsConLoop (assignNode st h discReq).1 h.con discReq.ResourceNames
      (assignNode st h discReq).2 with
  | done st2 => simp only [afterSelect, hpos, if_true]
  | blocked st2 => rfl
  | panicked st2 => rfl

theorem assignNode_keeps (st : State) (h : Handler) (discReq : DiscoveryRequest) :
    (assignNode st h discReq).2.edsClusters = st.edsClusters ∧
    (assignNode st h discReq).2.pushFull = st.pushFull ∧
    ((h.node ≠ "" ∨ discReq.Node = none) → assignNode st h discReq = (h.node, st)) := by
  unfold assignNode
  cases hn : discReq.Node with
  | none => simp
  | some id =>
    by_cases hnode : h.node = ""
    · simp [hnode, connectionID]
    · simp [hnode]

/-- What an acknowledgement does to a subscribed connection: the round ends without a push,
the watched set, the responses sent, the cache and the wake channels are as before, and the
only variables that can move are `node` and the counter, which `assignNode` sets when `node`
is still empty and the request carries a node. -/
theorem onRequest_ack (env : Environment) (st : State) (h : Handler)
    (discReq : DiscoveryRequest) (sendErr : Option String)
    (hirr : h.initialRequestReceived = true) (hne : h.Clusters ≠ [])
    (hle : discReq.ResourceNames.length ≤ h.Clusters.length) :
    onRequest env st h discReq sendErr
      = .next (assignNode st h discReq).2 { h with node := (assignNode st h discReq).1 } := by
  have hpos : h.Clusters.length > 0 := List.length_pos.mpr hne
  have hnot : ¬ discReq.ResourceNames.length > h.Clusters.length := by omega
  unfold onRequest
  simp only [hirr, hnot, and_false, if_false, hpos, and_self, if_true]

/-- C6, the code at the failing inputs; each connection has processed its first request and
has a non-empty watched set when the second request arrives. An acknowledgement (no more
names than watched) that carries a node, sent after a first request without a node, assigns
the node identifier and increments the counter, while the registration stays under the
empty identifier. A larger request `a`, `b`, `c` from a connection subscribed to `a` and `b`
blocks in the registration for `b`: no registration for `c`, no response. A larger request
`a`, `broken|http`, whose new cluster does not resolve, registers the connection and then
stops at the nil assignment in `pushEds`: no response. -/
theorem onRequest_subscribed_diverges :
    ((onRequest sampleEnv sampleStart (newHandler 1 "peer")
        (sampleRequestNoNode ["a"]) none).handler.initialRequestReceived = true ∧
      (onRequest sampleEnv sampleStart (newHandler 1 "peer")
        (sampleRequestNoNode ["a"]) none).handler.Clusters = ["a"] ∧
      (onRequest sampleEnv sampleStart (newHandler 1 "peer")
        (sampleRequestNoNode ["a"]) none).handler.node = "" ∧
      (onRequest sampleEnv sampleStart (newHandler 1 "peer")
        (sampleRequestNoNode ["a"]) none).state.connectionNumber = 0 ∧
      (onRequests sampleEnv [(sampleRequestNoNode ["a"], none), (sampleRequest ["a"], none)]
        sampleStart (newHandler 1 "peer")).handler.node = "sidecar~a~b~c-1" ∧
      (onRequests sampleEnv [(sampleRequestNoNode ["a"], none), (sampleRequest ["a"], none)]
        sampleStart (newHandler 1 "peer")).state.connectionNumber = 1 ∧
      watcher
        (onRequests sampleEnv [(sampleRequestNoNode ["a"], none), (sampleRequest ["a"], none)]
          sampleStart (newHandler 1 "peer")).state "a" "" = some 1 ∧
      watcher
        (onRequests sampleEnv [(sampleRequestNoNode ["a"], none), (sampleRequest ["a"], none)]
          sampleStart (newHandler 1 "peer")).state "a" "sidecar~a~b~c-1" = none) ∧
    ((onRequest sampleEnv sampleStart (newHandler 1 "peer")
        (sampleRequest ["a", "b"]) none).handler.initialRequestReceived = true ∧
      (onRequest sampleEnv sampleStart (newHandler 1 "peer")
        (sampleRequest ["a", "b"]) none).handler.Clusters = ["a", "b"] ∧
      (onRequests sampleEnv [(sampleRequest ["a", "b"], none), (sampleRequest ["a", "b", "c"], none)]
        sampleStart (newHandler 1 "peer")).isBlocked = true ∧
      (onRequests sampleEnv [(sampleRequest ["a", "b"], none), (sampleRequest ["a", "b", "c"], none)]
        sampleStart (newHandler 1 "peer")).handler.sent.length = 1 ∧
      watcher
        (onRequests sampleEnv
          [(sampleRequest ["a", "b"], none), (sampleRequest ["a", "b", "c"], none)]
          sampleStart (newHandler 1 "peer")).state "c" "sidecar~a~b~c-1" = none) ∧
    ((onRequest sampleEnv sampleStart (newHandler 1 "peer")
        (sampleRequest ["a"]) none).handler.initialRequestReceived = true ∧
      (onRequest sampleEnv sampleStart (newHandler 1 "peer")
        (sampleRequest ["a"]) none).handler.Clusters = ["a"] ∧
      (onRequests sampleEnv [(sampleRequest ["a"], none), (sampleRequest ["a", "broken|http"], none)]
        sampleStart (newHandler 1 "peer")).isPanicked = true ∧
      (onRequests sampleEnv [(sampleRequest ["a"], none), (sampleRequest ["a", "broken|http"], none)]
        sampleStart (newHandler 1 "peer")).handler.sent.length = 1) := by
  decide

/-! ## Closing a stream -/

/-- C7, the code at the failing input: a connection asks for cluster `a`, then for the
clusters `b` and `c`, which replaces its watched set, and then its stream ends. The close
step completes, having deregistered the connection from `b` and `c` only: cluster `a` still
maps the node identifier of the connection to the connection. -/
theorem closeStream_leaves_registration :
    (onRequests sampleEnv [(sampleRequest ["a"], none), (sampleRequest ["b", "c"], none)]
      sampleStart (newHandler 1 "peer")).handler.Clusters = ["b", "c"] ∧
    (closeStream
      (onRequests sampleEnv [(sampleRequest ["a"], none), (sampleRequest ["b", "c"], none)]
        sampleStart (newHandler 1 "peer")).state
      (onRequests sampleEnv [(sampleRequest ["a"], none), (sampleRequest ["b", "c"], none)]
        sampleStart (newHandler 1 "peer")).handler).isDone = true ∧
    watcher
      (closeStream
        (onRequests sampleEnv [(sampleRequest ["a"], none), (sampleRequest ["b", "c"], none)]
          sampleStart (newHandler 1 "peer")).state
        (onRequests sampleEnv [(sampleRequest ["a"], none), (sampleRequest ["b", "c"], none)]
          sampleStart (newHandler 1 "peer")).handler).state
      "a" "sidecar~a~b~c-1" = some 1 := by
  decide

/-! ## Deregistration with debug logging -/

theorem removeEdsCon_absent (st : State) (clusterName node : String) (connection : ConnRef)
    (c : EdsCluster) (hc : st.edsClusters.get clusterName = some c)
    (hold : c.EdsClients.get node = none) :
    removeEdsCon st clusterName node connection
      = if st.edsDebug = true then .panicked st else .done st := by
  simp only [removeEdsCon, getEdsCluster, hc, hold, ne_eq]
  rw [if_pos (by simp)]

/-- When `removeEdsCon` stops at a nil dereference: `edsDebug` is set, the cluster record
exists, and it holds no connection under `node`. -/
theorem removeEdsCon_isPanicked (st : State) (clusterName node : String) (connection : ConnRef) :
    (removeEdsCon st clusterName node connection).isPanicked = true
      ↔ st.edsDebug = true ∧ (getEdsCluster st clusterName).isSome = true ∧
          watcher st clusterName node = none := by
  cases hc : st.edsClusters.get clusterName with
  | none =>
    rw [removeEdsCon_missing st clusterName node connection hc]
    simp [Exec.isPanicked, getEdsCluster, hc]
  | some c =>
    have hw : watcher st clusterName node = c.EdsClients.get node := by simp [watcher, hc]
    cases hold : c.EdsClients.get node with
    | none =>
      rw [removeEdsCon_absent st clusterName node connection c hc hold]
      cases hd : st.edsDebug <;> simp [Exec.isPanicked, getEdsCluster, hc, hw, hold]
    | some old =>
      by_cases hsame : old = connection
      · subst hsame
        rw [removeEdsCon_same st clusterName node old c hc hold]
        simp [Exec.isPanicked, hw, hold]
      · rw [removeEdsCon_stale st clusterName node connection old c hc hold hsame]
        simp [Exec.isPanicked, hw, hold]

/-- C11, the code at the failing input. Connection `1` asks for the cluster `a` twice in one
request and connection `2` asks for `a`; debug logging is on. When the stream of connection
`1` ends, its first `removeEdsCon` deletes its entry, the record staying for connection `2`,
and its second `removeEdsCon` finds no connection under its node identifier and stops at
the nil dereference `oldcon.PeerAddr`. -/
theorem removeEdsCon_nil_dereference :
    (onRequest sampleEnv sampleStart (newHandler 1 "peer")
      (sampleRequest ["a", "a"]) none).handler.Clusters = ["a", "a"] ∧
    watcher
      (onRequest sampleEnv
        (onRequest sampleEnv sampleStart (newHandler 1 "peer")
          (sampleRequest ["a", "a"]) none).state
        (newHandler 2 "peer") (sampleRequest ["a"]) none).state
      "a" "sidecar~a~b~c-2" = some 2 ∧
    (removeEdsCon
      (onRequest sampleEnv
        (onRequest sampleEnv sampleStart (newHandler 1 "peer")
          (sampleRequest ["a", "a"]) none).state
        (newHandler 2 "peer") (sampleRequest ["a"]) none).state
      "a" "sidecar~a~b~c-1" 1).isDone = true ∧
    (removeEdsCon
      (removeEdsCon
        (onRequest sampleEnv
          (onRequest sampleEnv sampleStart (newHandler 1 "peer")
            (sampleRequest ["a", "a"]) none).state
          (newHandler 2 "peer") (sampleRequest ["a"]) none).state
        "a" "sidecar~a~b~c-1" 1).state
      "a" "sidecar~a~b~c-1" 1).isPanicked = true ∧
    (closeStream
      (onRequest sampleEnv
        (onRequest sampleEnv sampleStart (newHandler 1 "peer")
          (sampleRequest ["a", "a"]) none).state
        (newHandler 2 "peer") (sampleRequest ["a"]) none).state
      (onRequest sampleEnv sampleStart (newHandler 1 "peer")
        (sampleRequest ["a", "a"]) none).handler).isPanicked = true := by
  decide

/-! ## Re-registration of a connection -/

theorem addEdsCon_self_full (st : State) (c node : String) (con : ConnRef)
    (hreg : watcher st c node = some con) (hfull : con ∈ st.pushFull) :
    addEdsCon st c node con = .blocked st := by
  unfold watcher at hreg
  cases hc : st.edsClusters.get c with
  | none => rw [hc] at hreg; simp at hreg
  | some rec =>
    rw [hc] at hreg
    change rec.EdsClients.get node = some con at hreg
    simp only [addEdsCon, getOrAddEdsCluster, hc, hreg, chanSend, hfull, if_true, Exec.andThen]

theorem addEdsCon_self_empty (st : State) (c node : String) (con : ConnRef)
    (hreg : watcher st c node = some con) (hfree : con ∉ st.pushFull) :
    ∃ st1, addEdsCon st c node con = .done st1 ∧ con ∈ st1.pushFull ∧
      ∀ k, watcher st k node = some con → watcher st1 k node = some con := by
  have hreg0 := hreg
  unfold watcher at hreg
  cases hc : st.edsClusters.get c with
  | none => rw [hc] at hreg; simp at hreg
  | some rec =>
    rw [hc] at hreg
    change rec.EdsClients.get node = some con at hreg
    simp only [addEdsCon, getOrAddEdsCluster, hc, hreg, chanSend, hfree, if_false, Exec.andThen]
    refine ⟨_, rfl, by simp, ?_⟩
    intro k hk
    by_cases hkc : k = c
    · subst hkc
      simp [watcher, GoMap.get_set_self]
    · simp only [watcher, GoMap.get_set_ne _ _ _ _ hkc]
      exact hk

/-- A connection that registers again for two clusters in which it is already registered
under its node identifier blocks: the first registration sends a wake signal on its own
channel (or already finds it full), and the second one finds it full. -/
theorem addEdsConLoop_self_blocks (st : State) (node : String) (con : ConnRef)
    (a b : String) (rest : List String)
    (ha : watcher st a node = some con) (hb : watcher st b node = some con) :
    (addEdsConLoop node con (a :: b :: rest) st).isBlocked = true := by
  by_cases hfull : con ∈ st.pushFull
  · simp only [addEdsConLoop, addEdsCon_self_full st a node con ha hfull, Exec.andThen,
      Exec.isBlocked]
  · obtain ⟨st1, h1, hfull1, hkeep⟩ := addEdsCon_self_empty st a node con ha hfull
    simp only [addEdsConLoop, h1, Exec.andThen,
      addEdsCon_self_full st1 b node con (hkeep b hb) hfull1, Exec.isBlocked]

/-- C12, the code at the failing input. A connection subscribed to the clusters `a` and `b`,
its wake channel empty, asks for `a`, `b` and `c`. The `addEdsCon` call for `a` completes
and leaves a signal on the connection's own channel; the call for `b` finds the connection
itself stored under the node identifier and its channel full, and blocks: the sequence of
`addEdsCon` calls does not complete and the round of the event loop is stuck. -/
theorem addEdsCon_blocks_own_loop :
    (onRequest sampleEnv sampleStart (newHandler 1 "peer")
      (sampleRequest ["a", "b"]) none).handler.initialRequestReceived = true ∧
    (onRequest sampleEnv sampleStart (newHandler 1 "peer")
      (sampleRequest ["a", "b"]) none).handler.Clusters = ["a", "b"] ∧
    (onRequest sampleEnv sampleStart (newHandler 1 "peer")
      (sampleRequest ["a", "b"]) none).state.pushFull = [] ∧
    (addEdsCon
      (onRequest sampleEnv sampleStart (newHandler 1 "peer")
        (sampleRequest ["a", "b"]) none).state
      "a" "sidecar~a~b~c-1" 1).isDone = true ∧
    (addEdsCon
      (onRequest sampleEnv sampleStart (newHandler 1 "peer")
        (sampleRequest ["a", "b"]) none).state
      "a" "sidecar~a~b~c-1" 1).state.pushFull = [1] ∧
    watcher
      (addEdsCon
        (onRequest sampleEnv sampleStart (newHandler 1 "peer")
          (sampleRequest ["a", "b"]) none).state
        "a" "sidecar~a~b~c-1" 1).state
      "b" "sidecar~a~b~c-1" = some 1 ∧
    (addEdsCon
      (addEdsCon
        (onRequest sampleEnv sampleStart (newHandler 1 "peer")
          (sampleRequest ["a", "b"]) none).state
        "a" "sidecar~a~b~c-1" 1).state
      "b" "sidecar~a~b~c-1" 1).isBlocked = true ∧
    (addEdsConLoop "sidecar~a~b~c-1" 1 ["a", "b", "c"]
      (onRequest sampleEnv sampleStart (newHandler 1 "peer")
        (sampleRequest ["a", "b"]) none).state).isBlocked = true ∧
    (onRequest sampleEnv
      (onRequest sampleEnv sampleStart (newHandler 1 "peer")
        (sampleRequest ["a", "b"]) none).state
      (onRequest sampleEnv sampleStart (newHandler 1 "peer")
        (sampleRequest ["a", "b"]) none).handler
      (sampleRequest ["a", "b", "c"]) none).isBlocked = true := by
  decide

end Eds
